import Mathlib

/-!
Verification of the statistics subsystem of the Canberra City FC web
application (`src/app.py`).  The Python code is shallowly embedded: each
SQLAlchemy table becomes a Lean structure, the database session becomes an
explicit `DbState` value, and each route body / helper that touches the
statistics tables becomes a pure Lean function translated line by line from
the source.  Machine integers are modelled as `Int` (Python integers are
unbounded), and fallible paths return `Option`.
-/

set_option maxRecDepth 10000

namespace CanberraFC

/-! ## Python semantics helpers -/

/-- Lexicographic comparison of character lists by code point, the order
Python uses for `str` comparison. -/
def leListChar : List Char → List Char → Bool
  | [], _ => true
  | _ :: _, [] => false
  | a :: as, b :: bs =>
    if a < b then true
    else if b < a then false
    else leListChar as bs

/-- Insert `x` into `acc` after every element `y` with `le y x`; used to build
a stable sort. -/
def insertLe (le : α → α → Bool) (x : α) : List α → List α
  | [] => [x]
  | y :: ys => if le y x then y :: insertLe le x ys else x :: y :: ys

/-- Stable insertion sort, processing the input left to right so that elements
comparing equal keep their original relative order — the guarantee CPython's
`sorted` (Timsort) gives. -/
def sortLe (le : α → α → Bool) (xs : List α) : List α :=
  xs.foldl (fun acc x => insertLe le x acc) []

/-- Python `sorted(xs, key=…, reverse=descending)`: a stable sort; with
`reverse=True` the comparison is flipped but ties still keep their original
order. -/
def pySorted (le : α → α → Bool) (descending : Bool) (xs : List α) : List α :=
  sortLe (if descending then fun a b => le b a else le) xs

/-- Numeric value of a list of decimal digit characters. -/
def digitsVal (ds : List Char) : Nat :=
  ds.foldl (fun acc c => acc * 10 + (c.toNat - '0'.toNat)) 0

/-- Python `int(s)` on a string: optional surrounding whitespace, an optional
sign, then at least one decimal digit; anything else raises `ValueError`
(modelled as `none`).  Digit-group underscores are not modelled. -/
def pyInt (s : String) : Option Int :=
  let t := (s.toList.dropWhile Char.isWhitespace).reverse.dropWhile Char.isWhitespace |>.reverse
  match t with
  | [] => none
  | c :: rest =>
    let (sign, digits) : Int × List Char :=
      if c = '-' then (-1, rest)
      else if c = '+' then (1, rest)
      else (1, c :: rest)
    if digits.isEmpty then none
    else if digits.all Char.isDigit then some (sign * (digitsVal digits : Int))
    else none

/-- A submitted HTML form: an association of parameter names to raw string
values; `request.form.get k` returns the first value bound to `k`. -/
def formLookup (form : List (String × String)) (k : String) : Option String :=
  match form.find? (fun p => p.1 == k) with
  | some p => some p.2
  | none => none

/-- `int(request.form.get(key, 0))`: a missing parameter defaults to the
integer `0` (which trivially "parses"), a present one goes through `int`. -/
def parseField (form : List (String × String)) (key : String) : Option Int :=
  match formLookup form key with
  | none => some 0
  | some v => pyInt v

/-! ### Python `dict` as an association list

Insertion-ordered with key overwrite in place, exactly the observable
behaviour of a CPython `dict` for the uses in `app.py`. -/

/-- Insert a binding, overwriting the first existing binding of the same key
in place (later bindings are left; dictionaries built from `[]` through this
function never contain duplicate keys). -/
def dictInsert [DecidableEq κ] (k : κ) (v : α) : List (κ × α) → List (κ × α)
  | [] => [(k, v)]
  | (k2, v2) :: rest =>
    if k = k2 then (k, v) :: rest else (k2, v2) :: dictInsert k v rest

/-- `d.get(k)` / `d[k]`: the value of the (unique) binding of `k`. -/
def dictGet? [DecidableEq κ] (d : List (κ × α)) (k : κ) : Option α :=
  match d with
  | [] => none
  | (k2, v) :: rest => if k2 = k then some v else dictGet? rest k

/-- `d.values()` in insertion order. -/
def dictValues (d : List (κ × α)) : List α := d.map (·.2)

/-- `{key x: x for x in l}` extended onto an existing dictionary `d`:
a left fold of overwriting inserts. -/
def keyFold [DecidableEq κ] (key : α → κ) (l : List α) (d : List (κ × α)) :
    List (κ × α) :=
  l.foldl (fun d x => dictInsert (key x) x d) d

/-! ## Data model (`src/app.py`, models `PlayerInfo`, `PlayerStat`,
`SeasonStat`)

Only the columns the statistics subsystem reads or writes are modelled;
`preferred_position`, `shirt_number`, `beer_duty_date` and `support_offered`
never flow into the statistics tables. -/

/-- A `PlayerInfo` row: primary key and unique display name. -/
structure PlayerInfo where
  id : Nat
  name : String
deriving DecidableEq, Repr

/-- A `PlayerStat` (aggregate statistics) row: keyed by player *name*. -/
structure PlayerStat where
  id : Nat
  player : String
  goals : Int
  assists : Int
  player_of_match : Int
  clean_sheets : Int
  yellow_cards : Int
  red_cards : Int
deriving DecidableEq, Repr

/-- A `SeasonStat` row: keyed by (player identity, season year). -/
structure SeasonStat where
  id : Nat
  player_id : Nat
  season_year : Int
  goals : Int
  assists : Int
  player_of_match : Int
  yellow_cards : Int
  red_cards : Int
deriving DecidableEq, Repr

/-- The database tables the statistics subsystem touches, plus a fresh-id
counter standing in for the primary-key sequences assigned at `flush`. -/
structure DbState where
  players : List PlayerInfo
  playerStats : List PlayerStat
  seasonStats : List SeasonStat
  nextId : Nat
deriving DecidableEq, Repr

/-! ## Stat reconciler (`_ensure_player_stat_rows`, `_ensure_season_stat_rows`,
lines 191–243) -/

/-- `PlayerStat(player=name)`: a zero-initialized aggregate row (column
defaults), with `id` assigned at flush. -/
def mkPlayerStat (id : Nat) (name : String) : PlayerStat :=
  { id := id, player := name, goals := 0, assists := 0, player_of_match := 0,
    clean_sheets := 0, yellow_cards := 0, red_cards := 0 }

/-- Assign consecutive flush ids to the batch of missing aggregate rows. -/
def assignIds (names : List String) (n : Nat) : List PlayerStat :=
  match names with
  | [] => []
  | x :: xs => mkPlayerStat n x :: assignIds xs (n + 1)

/-- `_ensure_player_stat_rows(players)` (lines 191–210): batch-create a
`PlayerStat` row for every roster player whose name has none, returning the
name-keyed dictionary, the `created` flag and the updated database state. -/
def ensure_player_stat_rows (players : List PlayerInfo) (s : DbState) :
    List (String × PlayerStat) × Bool × DbState :=
  let stats_by_name := keyFold (·.player) s.playerStats []
  let missingNames :=
    (players.filter (fun p => (dictGet? stats_by_name p.name).isNone)).map (·.name)
  let missing := assignIds missingNames s.nextId
  if missing.isEmpty then (stats_by_name, false, s)
  else
    let s' := { s with playerStats := s.playerStats ++ missing,
                       nextId := s.nextId + missing.length }
    (keyFold (·.player) missing stats_by_name, true, s')

/-- `SeasonStat(player_id=…, season_year=…)`: a zero-initialized season row. -/
def mkSeasonStat (id : Nat) (pid : Nat) (year : Int) : SeasonStat :=
  { id := id, player_id := pid, season_year := year, goals := 0, assists := 0,
    player_of_match := 0, yellow_cards := 0, red_cards := 0 }

/-- The `for player in players` loop of `_ensure_season_stat_rows`
(lines 229–235): carry the identity-keyed dictionary, the list of rows to
batch-insert, and the next flush id. -/
def seasonLoop (year : Int) :
    List PlayerInfo → List (Nat × SeasonStat) → List SeasonStat → Nat →
    List (Nat × SeasonStat) × List SeasonStat × Nat
  | [], d, ms, nid => (d, ms, nid)
  | p :: ps, d, ms, nid =>
    if (dictGet? d p.id).isSome then seasonLoop year ps d ms nid
    else
      let st := mkSeasonStat nid p.id year
      seasonLoop year ps (dictInsert p.id st d) (ms ++ [st]) (nid + 1)

/-- `_ensure_season_stat_rows(players, season_year)` (lines 213–243): with an
empty roster return at once; otherwise load the season's rows for the given
player identities, create the missing ones in one batch, and return the
identity-keyed dictionary plus the `created` flag. -/
def ensure_season_stat_rows (players : List PlayerInfo) (year : Int)
    (s : DbState) : List (Nat × SeasonStat) × Bool × DbState :=
  if players.isEmpty then ([], false, s)
  else
    let pids := players.map (·.id)
    let existing := s.seasonStats.filter
      (fun st => st.season_year == year && pids.contains st.player_id)
    let d0 := keyFold (·.player_id) existing []
    let (d, missing, nid) := seasonLoop year players d0 [] s.nextId
    if missing.isEmpty then (d, false, s)
    else (d, true, { s with seasonStats := s.seasonStats ++ missing,
                             nextId := nid })

/-! ## Stat presenter (`_sort_player_stats`, `_sort_season_stats`,
lines 246–259, and the sort-parameter handling of the `/stats` route,
lines 706–723) -/

/-- Case-folded name key: Python `s.lower()` followed by code-point
comparison (`Char.toLower` covers the ASCII names the application stores). -/
def lowerKey (s : String) : List Char := s.toList.map Char.toLower

/-- `getattr(stat, field, 0)` on a `PlayerStat` for the numeric sort branch:
every integer column is an attribute, anything else defaults to `0`. -/
def aggGetAttr (st : PlayerStat) (field : String) : Int :=
  if field == "goals" then st.goals
  else if field == "assists" then st.assists
  else if field == "player_of_match" then st.player_of_match
  else if field == "clean_sheets" then st.clean_sheets
  else if field == "yellow_cards" then st.yellow_cards
  else if field == "red_cards" then st.red_cards
  else if field == "id" then (st.id : Int)
  else 0

/-- `getattr(stat, field, 0)` on a `SeasonStat`. -/
def seasonGetAttr (st : SeasonStat) (field : String) : Int :=
  if field == "goals" then st.goals
  else if field == "assists" then st.assists
  else if field == "player_of_match" then st.player_of_match
  else if field == "yellow_cards" then st.yellow_cards
  else if field == "red_cards" then st.red_cards
  else if field == "id" then (st.id : Int)
  else if field == "player_id" then (st.player_id : Int)
  else if field == "season_year" then st.season_year
  else 0

/-- `_sort_player_stats(stats, field, descending)` (lines 246–251). -/
def sort_player_stats (stats : List PlayerStat) (field : String)
    (descending : Bool) : List PlayerStat :=
  let le : PlayerStat → PlayerStat → Bool :=
    if field == "player" then
      fun a b => leListChar (lowerKey a.player) (lowerKey b.player)
    else
      fun a b => decide (aggGetAttr a field ≤ aggGetAttr b field)
  pySorted le descending stats

/-- `stat.player` relationship of a `SeasonStat`: resolve the owning
`PlayerInfo` through the foreign key. -/
def seasonOwner (players : List PlayerInfo) (st : SeasonStat) :
    Option PlayerInfo :=
  players.find? (fun p => p.id == st.player_id)

/-- `_sort_season_stats(stats, field, descending)` (lines 254–259): the
`player` key resolves through the relationship, with `''` when absent. -/
def sort_season_stats (players : List PlayerInfo) (stats : List SeasonStat)
    (field : String) (descending : Bool) : List SeasonStat :=
  let le : SeasonStat → SeasonStat → Bool :=
    if field == "player" then
      fun a b =>
        let ka := match seasonOwner players a with
          | some p => lowerKey p.name
          | none => []
        let kb := match seasonOwner players b with
          | some p => lowerKey p.name
          | none => []
        leListChar ka kb
    else
      fun a b => decide (seasonGetAttr a field ≤ seasonGetAttr b field)
  pySorted le descending stats

/-- Sort-field allow-list of the `/stats` route (lines 706, 716). -/
def allowed_fields : List String :=
  ["player", "goals", "assists", "player_of_match", "yellow_cards",
   "red_cards"]

/-- Lines 707–713 of the `/stats` route: read the `sort` and `order` query
parameters, replace an out-of-allow-list field by `player`, and sort the 2025
(aggregate) table with `descending := (order == "desc")`. -/
def routeSortPlayerStats (stats : List PlayerStat)
    (sortArg orderArg : Option String) : List PlayerStat :=
  let sf := sortArg.getD "player"
  let sf := if allowed_fields.contains sf then sf else "player"
  let ord := orderArg.getD "asc"
  sort_player_stats stats sf (ord == "desc")

/-- Lines 716–723: the identical handling for the 2026 (season) table. -/
def routeSortSeasonStats (players : List PlayerInfo) (stats : List SeasonStat)
    (sortArg orderArg : Option String) : List SeasonStat :=
  let sf := sortArg.getD "player"
  let sf := if allowed_fields.contains sf then sf else "player"
  let ord := orderArg.getD "asc"
  sort_season_stats players stats sf (ord == "desc")

/-! ## The `/stats` route: reconciliation and backfill (lines 668–695, 773–774)
and the bulk counter-update forms (lines 726–756) -/

/-- Roster order of `PlayerInfo.query.order_by(PlayerInfo.name)`; the SQL
collation is abstracted as code-point order. -/
def rosterByName (players : List PlayerInfo) : List PlayerInfo :=
  pySorted (fun a b => leListChar a.name.toList b.name.toList) false players

/-- Lines 687–694: the body of the backfill loop for one 2026 season row —
resolve the row's player, look its name up in the aggregate dictionary, and
when an aggregate row exists copy its five counters into the season row. -/
def backfillRow (agg : List (String × PlayerStat)) (players : List PlayerInfo)
    (st : SeasonStat) : SeasonStat :=
  let pname := match seasonOwner players st with
    | some p => p.name
    | none => ""
  match dictGet? agg pname with
  | some b =>
    { st with goals := b.goals, assists := b.assists,
              player_of_match := b.player_of_match,
              yellow_cards := b.yellow_cards, red_cards := b.red_cards }
  | none => st

/-- The in-place mutation of the session's season rows by the backfill loop:
each database row whose primary key matches a mutated dictionary value is
that mutated value (row objects are shared between the dictionary and the
session, and primary keys are unique). -/
def applyBackfill (modified : List SeasonStat) (rows : List SeasonStat) :
    List SeasonStat :=
  rows.map (fun st =>
    match modified.find? (fun m => m.id == st.id) with
    | some m => m
    | none => st)

/-- The database effect of a GET of the `/stats` route (lines 677–695 and the
closing commit at 773–774): load the roster, ensure aggregate and 2026 season
rows, and — when season rows were just created — run the backfill loop over
every value of the season dictionary. -/
def statsView (s : DbState) : DbState :=
  let all_players := rosterByName s.players
  let r1 := ensure_player_stat_rows all_players s
  let agg := r1.1
  let r2 := ensure_season_stat_rows all_players 2026 r1.2.2
  let s2 := r2.2.2
  if r2.2.1 then
    let modified := (dictValues r2.1).map (backfillRow agg all_players)
    { s2 with seasonStats := applyBackfill modified s2.seasonStats }
  else s2

/-- Lines 744–752: the `try` block for one aggregate row of the 2025 bulk
update form.  Assignments happen in order; the first field whose `int(…)`
raises `ValueError` aborts the rest of the row's block, keeping every earlier
assignment. -/
def updateStatRow (form : List (String × String)) (st : PlayerStat) :
    PlayerStat :=
  match parseField form ("goals_" ++ toString st.id) with
  | none => st
  | some g =>
    match parseField form ("assists_" ++ toString st.id) with
    | none => { st with goals := g }
    | some a =>
      match parseField form ("player_of_match_" ++ toString st.id) with
      | none => { st with goals := g, assists := a }
      | some pm =>
        match parseField form ("yellow_cards_" ++ toString st.id) with
        | none => { st with goals := g, assists := a, player_of_match := pm }
        | some y =>
          match parseField form ("red_cards_" ++ toString st.id) with
          | none => { st with goals := g, assists := a,
                              player_of_match := pm, yellow_cards := y }
          | some r => { st with goals := g, assists := a,
                                player_of_match := pm, yellow_cards := y,
                                red_cards := r }

/-- Lines 731–738: the same `try` block for one 2026 season row; the form
parameters are keyed by the owning player's identity. -/
def updateSeasonRow (form : List (String × String)) (st : SeasonStat) :
    SeasonStat :=
  match parseField form ("goals_" ++ toString st.player_id) with
  | none => st
  | some g =>
    match parseField form ("assists_" ++ toString st.player_id) with
    | none => { st with goals := g }
    | some a =>
      match parseField form ("player_of_match_" ++ toString st.player_id) with
      | none => { st with goals := g, assists := a }
      | some pm =>
        match parseField form ("yellow_cards_" ++ toString st.player_id) with
        | none => { st with goals := g, assists := a, player_of_match := pm }
        | some y =>
          match parseField form ("red_cards_" ++ toString st.player_id) with
          | none => { st with goals := g, assists := a,
                              player_of_match := pm, yellow_cards := y }
          | some r => { st with goals := g, assists := a,
                                player_of_match := pm, yellow_cards := y,
                                red_cards := r }

/-- The `for stat in player_stats` loop of the 2025 branch (lines 744–752)
followed by the commit: every aggregate row is put through its own `try`
block independently. -/
def applyAggUpdateForm (form : List (String × String)) (s : DbState) :
    DbState :=
  { s with playerStats := s.playerStats.map (updateStatRow form) }

/-- The `for player in all_players` loop of the 2026 branch (lines 729–738):
the rows mutated are the values of the season dictionary, which under the
(player, season) uniqueness invariant are exactly the 2026 rows of the
roster's players. -/
def applySeasonUpdateForm (form : List (String × String))
    (players : List PlayerInfo) (s : DbState) : DbState :=
  { s with seasonStats := s.seasonStats.map (fun st =>
      if st.season_year == 2026 && players.any (fun p => p.id == st.player_id)
      then updateSeasonRow form st else st) }

/-! ## Player administration (`/players` POST lines 319–329,
`/players/add` lines 358–367, `/players/delete` lines 370–394) -/

/-- Replace the first element satisfying `p` by `f` of it. -/
def replaceFirst (p : α → Bool) (f : α → α) : List α → List α
  | [] => []
  | x :: xs => if p x then f x :: xs else x :: replaceFirst p f xs

/-- Remove the first element satisfying `p`. -/
def removeFirst (p : α → Bool) : List α → List α
  | [] => []
  | x :: xs => if p x then xs else x :: removeFirst p xs

/-- One iteration of the `/players` POST loop (lines 319–329) for the player
with identity `pid`: when the submitted name differs from the current one,
the first `PlayerStat` row carrying the old name is renamed too, then the
roster row's name is updated. -/
def renamePlayer (s : DbState) (pid : Nat) (newName : String) : DbState :=
  match s.players.find? (fun q => q.id == pid) with
  | none => s
  | some player =>
    if newName == player.name then s
    else
      let stats' := replaceFirst (fun st => st.player == player.name)
        (fun st => { st with player := newName }) s.playerStats
      let players' := s.players.map (fun q =>
        if q.id == pid then { q with name := newName } else q)
      { s with players := players', playerStats := stats' }

/-- `/players/add` (lines 358–367): strip the submitted name and insert a new
roster row when it is non-empty and no player of that name exists. -/
def addPlayer (s : DbState) (rawName : String) : DbState :=
  let name := String.mk ((rawName.toList.dropWhile Char.isWhitespace).reverse.dropWhile
    Char.isWhitespace |>.reverse)
  if name ≠ "" && (s.players.find? (fun q => q.name == name)).isNone then
    { s with players := s.players ++ [{ id := s.nextId, name := name }],
             nextId := s.nextId + 1 }
  else s

/-- `/players/delete/<player_id>` (lines 370–394): `get_or_404` aborts with
no state change when the identity is unknown (`none`); otherwise the roster
row, the first aggregate row carrying the player's name, and every season row
referencing the identity are deleted in one transaction. -/
def deletePlayer (s : DbState) (pid : Nat) : Option DbState :=
  match s.players.find? (fun q => q.id == pid) with
  | none => none
  | some player =>
    some { s with
      players := removeFirst (fun q => q.id == pid) s.players,
      playerStats := removeFirst (fun st => st.player == player.name)
        s.playerStats,
      seasonStats := s.seasonStats.filter (fun st => !(st.player_id == pid)) }

/-! ## Gallery media listing (`_list_vercel_blobs_for_year`, lines 95–122) -/

/-- Media extension allow-list (line 73). -/
def ALLOWED_MEDIA_EXTENSIONS : List String :=
  ["png", "jpg", "jpeg", "gif", "webp", "mp4", "mov", "avi"]

/-- `allowed_media_file(filename)` (lines 76–77). -/
def allowed_media_file (filename : String) : Bool :=
  filename.toList.contains '.' &&
    ALLOWED_MEDIA_EXTENSIONS.contains
      (String.mk (lowerKey ((filename.splitOn ".").getLastD "")))

/-- `os.path.basename` on the POSIX paths the blob API returns. -/
def basename (p : String) : String := (p.splitOn "/").getLastD ""

/-- Python `x or y` on an optional string: `None` and `""` are falsy. -/
def pyOrStr (a : Option String) (b : String) : String :=
  match a with
  | some s => if s == "" then b else s
  | none => b

/-- Python `x or y` keeping the option: used for `uploadedAt or createdAt`. -/
def pyOrOpt (a b : Option String) : Option String :=
  match a with
  | some s => if s == "" then b else some s
  | none => b

/-- One JSON object of the blob listing; each field may be absent. -/
structure BlobItem where
  url : Option String
  pathname : Option String
  key : Option String
  uploadedAt : Option String
  createdAt : Option String
deriving DecidableEq, Repr

/-- One entry of the list `_list_vercel_blobs_for_year` returns. -/
structure MediaEntry where
  name : String
  url : Option String
  uploaded_at : Option String
deriving DecidableEq, Repr

/-- The observable outcome of the single outbound HTTP request: either
`requests.get` raised (connection error or the 10-second timeout), or a
response arrived with a status code and — when the body parsed as a usable
listing — its blob/item array. -/
inductive RemoteOutcome where
  | netFailure
  | response (status : Nat) (body : Option (List BlobItem))
deriving DecidableEq, Repr

/-- Lines 111–119: the per-item processing of a successful listing. -/
def processBlobItems (items : List BlobItem) : List MediaEntry :=
  match items with
  | [] => []
  | it :: rest =>
    let pathname := pyOrStr it.pathname (pyOrStr it.key "")
    let name := if pathname == "" then "" else basename pathname
    if name == "" || !allowed_media_file name then processBlobItems rest
    else { name := name, url := it.url,
           uploaded_at := pyOrOpt it.uploadedAt it.createdAt }
      :: processBlobItems rest

/-- `_list_vercel_blobs_for_year(year)` (lines 95–122), with the environment
token, the importability of `requests` and the network outcome made explicit
inputs.  `year` only selects the remote prefix queried.  A missing or empty
token or an unimportable `requests` short-circuits to `[]`; any exception in
the `try` block — network error, timeout, an error status raised by
`raise_for_status`, or a malformed body — degrades to `[]`. -/
def list_vercel_blobs_for_year (token : Option String)
    (requestsAvailable : Bool) (year : Int) (outcome : RemoteOutcome) :
    List MediaEntry :=
  let _queriedYear := year
  match token with
  | none => []
  | some t =>
    if t == "" || !requestsAvailable then []
    else
      match outcome with
      | .netFailure => []
      | .response status body =>
        if 400 ≤ status then []
        else
          match body with
          | none => []
          | some items => processBlobItems items

/-- The read token is "not configured": unset or empty. -/
def tokenMissing (token : Option String) : Bool :=
  match token with
  | none => true
  | some t => t == ""

/-- The remote call "failed in any way": the request raised (network error or
timeout), the status is an error status, or the body did not parse. -/
def outcomeFailed : RemoteOutcome → Bool
  | .netFailure => true
  | .response status body => decide (400 ≤ status) || body.isNone

/-! ## Table-key invariants -/

/-- At most one aggregate row per player name (column `player` is declared
`unique=True`, line 633). -/
abbrev aggInv (s : DbState) : Prop := (s.playerStats.map (·.player)).Nodup

/-- At most one season row per (player identity, season year)
(`uq_player_season`, line 657). -/
abbrev seasonInv (s : DbState) : Prop :=
  (s.seasonStats.map (fun st => (st.player_id, st.season_year))).Nodup

/-- Database well-formedness: the schema's uniqueness constraints together
with freshness of the primary-key counter. -/
abbrev Wf (s : DbState) : Prop :=
  (s.players.map (·.name)).Nodup ∧
  (s.players.map (·.id)).Nodup ∧
  aggInv s ∧ seasonInv s ∧
  (s.seasonStats.map (·.id)).Nodup ∧
  (∀ st ∈ s.seasonStats, st.id < s.nextId) ∧
  (∀ p ∈ s.players, p.id < s.nextId)

/-- A zero-initialized aggregate row, as the column defaults produce. -/
abbrev zeroAgg (st : PlayerStat) : Prop :=
  st.goals = 0 ∧ st.assists = 0 ∧ st.player_of_match = 0 ∧
  st.clean_sheets = 0 ∧ st.yellow_cards = 0 ∧ st.red_cards = 0

/-! ## Lemmas about the dictionary model -/

theorem dictGet?_nil [DecidableEq κ] (k : κ) :
    dictGet? ([] : List (κ × α)) k = none := rfl

theorem dictGet?_insert [DecidableEq κ] (d : List (κ × α)) (k k' : κ) (v : α) :
    dictGet? (dictInsert k v d) k' =
      if k' = k then some v else dictGet? d k' := by
  induction d with
  | nil =>
    simp only [dictInsert, dictGet?]
    by_cases h : k = k'
    · simp [h]
    · rw [if_neg h, if_neg (fun hh : k' = k => h hh.symm)]
  | cons p rest ih =>
    obtain ⟨k2, v2⟩ := p
    by_cases hk : k = k2
    · subst hk
      simp only [dictInsert, if_pos rfl, dictGet?]
      by_cases h : k = k'
      · simp [h]
      · rw [if_neg h, if_neg (fun hh : k' = k => h hh.symm), if_neg h]
    · simp only [dictInsert, if_neg hk, dictGet?]
      by_cases h2 : k2 = k'
      · have hne : ¬ k' = k := fun hh => hk ((h2.trans hh).symm)
        simp [h2, hne]
      · simp [h2, ih]

theorem mem_dictValues_insert [DecidableEq κ] {d : List (κ × α)} {k : κ}
    {v w : α} (h : w ∈ dictValues (dictInsert k v d)) :
    w = v ∨ w ∈ dictValues d := by
  induction d with
  | nil => simpa [dictInsert, dictValues] using h
  | cons p rest ih =>
    obtain ⟨k2, v2⟩ := p
    by_cases hk : k = k2
    · simp only [dictInsert, if_pos hk, dictValues, List.map_cons,
        List.mem_cons] at h
      rcases h with h | h
      · exact Or.inl h
      · exact Or.inr (by simp [dictValues, h])
    · simp only [dictInsert, if_neg hk, dictValues, List.map_cons,
        List.mem_cons] at h
      rcases h with h | h
      · exact Or.inr (by simp [dictValues, h])
      · rcases ih h with h3 | h3
        · exact Or.inl h3
        · refine Or.inr ?_
          simp only [dictValues, List.map_cons, List.mem_cons]
          exact Or.inr (by simpa [dictValues] using h3)

theorem dictGet?_keyFold_isSome [DecidableEq κ] (key : α → κ)
    (l : List α) (d : List (κ × α)) (k : κ) :
    (dictGet? (keyFold key l d) k).isSome ↔
      k ∈ l.map key ∨ (dictGet? d k).isSome := by
  induction l generalizing d with
  | nil => simp [keyFold]
  | cons x xs ih =>
    simp only [keyFold, List.foldl_cons] at ih ⊢
    rw [ih (dictInsert (key x) x d)]
    rw [dictGet?_insert]
    by_cases h : k = key x
    · simp [h]
    · simp [h, fun h2 : key x = k => h h2.symm]

theorem mem_dictValues_keyFold [DecidableEq κ] (key : α → κ)
    {l : List α} {d : List (κ × α)} {v : α}
    (h : v ∈ dictValues (keyFold key l d)) : v ∈ l ∨ v ∈ dictValues d := by
  induction l generalizing d with
  | nil => exact Or.inr (by simpa [keyFold] using h)
  | cons x xs ih =>
    simp only [keyFold, List.foldl_cons] at h
    rcases ih (d := dictInsert (key x) x d) h with h2 | h2
    · exact Or.inl (List.mem_cons_of_mem _ h2)
    · rcases mem_dictValues_insert h2 with h3 | h3
      · exact Or.inl (h3 ▸ List.mem_cons_self _ _)
      · exact Or.inr h3

/-! ## Lemmas about the stable sort -/

theorem insertLe_perm (le : α → α → Bool) (x : α) (l : List α) :
    List.Perm (insertLe le x l) (x :: l) := by
  induction l with
  | nil => exact List.Perm.refl _
  | cons y ys ih =>
    simp only [insertLe]
    by_cases h : le y x = true
    · simp only [if_pos h]
      exact (ih.cons y).trans (List.Perm.swap x y ys)
    · simp only [if_neg h]
      exact List.Perm.refl _

theorem foldl_insertLe_perm (le : α → α → Bool) (l acc : List α) :
    List.Perm (l.foldl (fun acc x => insertLe le x acc) acc) (acc ++ l) := by
  induction l generalizing acc with
  | nil => simp
  | cons x xs ih =>
    simp only [List.foldl_cons]
    refine (ih (insertLe le x acc)).trans ?_
    refine (List.Perm.append_right xs (insertLe_perm le x acc)).trans ?_
    exact List.perm_middle.symm

theorem sortLe_perm (le : α → α → Bool) (l : List α) :
    List.Perm (sortLe le l) l := by
  simpa using foldl_insertLe_perm le l []

theorem pySorted_perm (le : α → α → Bool) (b : Bool) (l : List α) :
    List.Perm (pySorted le b l) l := by
  unfold pySorted
  exact sortLe_perm _ l

theorem rosterByName_perm (players : List PlayerInfo) :
    List.Perm (rosterByName players) players := by
  unfold rosterByName
  exact pySorted_perm _ _ _

/-! ## Lemmas about single-row replacement and removal -/

theorem replaceFirst_eq_map (p : α → Bool) (f : α → α) (l : List α)
    (h : l.countP p ≤ 1) :
    replaceFirst p f l = l.map (fun x => if p x then f x else x) := by
  induction l with
  | nil => rfl
  | cons x xs ih =>
    rw [List.countP_cons] at h
    simp only [replaceFirst, List.map_cons]
    by_cases hx : p x = true
    · rw [if_pos hx] at h
      have hzero : xs.countP p = 0 := by omega
      have hall := List.countP_eq_zero.1 hzero
      have hmap : ∀ y ∈ xs, (if p y then f y else y) = y := by
        intro y hy
        simp [hall y hy]
      rw [if_pos hx, if_pos hx, List.map_congr_left hmap]
      simp
    · rw [if_neg hx] at h
      rw [if_neg hx, if_neg hx, ih (by omega)]

theorem removeFirst_eq_filter (p : α → Bool) (l : List α)
    (h : l.countP p ≤ 1) :
    removeFirst p l = l.filter (fun x => !p x) := by
  induction l with
  | nil => rfl
  | cons x xs ih =>
    rw [List.countP_cons] at h
    by_cases hx : p x = true
    · rw [if_pos hx] at h
      have hzero : xs.countP p = 0 := by omega
      have hall := List.countP_eq_zero.1 hzero
      simp only [removeFirst, if_pos hx, List.filter_cons, hx, Bool.not_true,
        Bool.false_eq_true, if_false]
      exact (List.filter_eq_self.2 (by
        intro a ha
        simp [hall a ha])).symm
    · rw [if_neg hx] at h
      have hx' : p x = false := by simpa using hx
      simp only [removeFirst, if_neg hx, List.filter_cons, hx',
        Bool.not_false, if_true]
      rw [ih (by omega)]
      simp

/-- Under a `Nodup` key projection, at most one element carries a given
key. -/
theorem countP_key_le_one (key : α → κ) [DecidableEq κ] (c : κ) (l : List α)
    (h : (l.map key).Nodup) : l.countP (fun x => key x = c) ≤ 1 := by
  induction l with
  | nil => simp
  | cons x xs ih =>
    simp only [List.map_cons, List.nodup_cons] at h
    rw [List.countP_cons]
    by_cases hx : key x = c
    · have hzero : xs.countP (fun x => key x = c) = 0 := by
        refine List.countP_eq_zero.2 ?_
        intro y hy hpy
        refine h.1 ?_
        have : key y = c := by simpa using hpy
        rw [hx, ← this]
        exact List.mem_map_of_mem (f := key) hy
      simp [hx, hzero]
    · have hrest := ih h.2
      have hx0 : (if decide (key x = c) = true then 1 else 0) = 0 := by
        simp [hx]
      rw [hx0]
      omega

/-! ## Lemmas about the aggregate ensure operation -/

theorem assignIds_map_player (names : List String) (n : Nat) :
    (assignIds names n).map (·.player) = names := by
  induction names generalizing n with
  | nil => rfl
  | cons x xs ih => simp [assignIds, mkPlayerStat, ih]

theorem zeroAgg_of_mem_assignIds {names : List String} {n : Nat}
    {st : PlayerStat} (h : st ∈ assignIds names n) : zeroAgg st := by
  induction names generalizing n with
  | nil => cases h
  | cons x xs ih =>
    simp only [assignIds, List.mem_cons] at h
    rcases h with h | h
    · subst h
      exact ⟨rfl, rfl, rfl, rfl, rfl, rfl⟩
    · exact ih h

theorem assignIds_eq_nil_iff (names : List String) (n : Nat) :
    assignIds names n = [] ↔ names = [] := by
  cases names <;> simp [assignIds]

theorem aggDict_isSome (l : List PlayerStat) (nm : String) :
    (dictGet? (keyFold (·.player) l []) nm).isSome ↔ nm ∈ l.map (·.player) := by
  rw [dictGet?_keyFold_isSome]
  simp [dictGet?]

/-- The roster players the aggregate ensure step creates rows for are exactly
those whose name carries no existing aggregate row. -/
theorem ensure_agg_missing_filter (players : List PlayerInfo) (s : DbState) :
    players.filter
        (fun p => (dictGet? (keyFold (·.player) s.playerStats []) p.name).isNone)
      = players.filter (fun p => ¬ p.name ∈ s.playerStats.map (·.player)) := by
  refine List.filter_congr ?_
  intro p _
  cases hdg : dictGet? (keyFold (·.player) s.playerStats []) p.name with
  | none =>
    have : ¬ p.name ∈ s.playerStats.map (·.player) := by
      rw [← aggDict_isSome s.playerStats p.name, hdg]
      simp
    simp [this]
  | some v =>
    have : p.name ∈ s.playerStats.map (·.player) := by
      rw [← aggDict_isSome s.playerStats p.name, hdg]
      simp
    simp [this]

/-- Abbreviation for the names the aggregate ensure step must create. -/
def missingAggNames (players : List PlayerInfo) (s : DbState) : List String :=
  (players.filter (fun p => ¬ p.name ∈ s.playerStats.map (·.player))).map
    (·.name)

/-- State effect of `_ensure_player_stat_rows`: the missing zero rows are
appended in one batch and the id counter advances past them; roster and
season rows are untouched. -/
theorem assignIds_length (names : List String) (n : Nat) :
    (assignIds names n).length = names.length := by
  induction names generalizing n with
  | nil => rfl
  | cons x xs ih => simp [assignIds, ih]

theorem ensure_agg_state (players : List PlayerInfo) (s : DbState) :
    (ensure_player_stat_rows players s).2.2 =
      { s with
        playerStats := s.playerStats ++
          assignIds (missingAggNames players s) s.nextId,
        nextId := s.nextId + (missingAggNames players s).length } := by
  unfold ensure_player_stat_rows
  dsimp only
  rw [ensure_agg_missing_filter]
  by_cases h : (missingAggNames players s) = []
  · simp only [missingAggNames] at h ⊢
    rw [h]
    simp [assignIds]
  · have h2 : ¬ assignIds (missingAggNames players s) s.nextId = [] := by
      rw [assignIds_eq_nil_iff]
      exact h
    simp only [missingAggNames] at h2 ⊢
    rw [if_neg (by simpa [List.isEmpty_iff] using h2)]
    simp [assignIds_length]

/-- The `created` flag of `_ensure_player_stat_rows` is set exactly when some
roster player had no aggregate row. -/
theorem ensure_agg_created (players : List PlayerInfo) (s : DbState) :
    (ensure_player_stat_rows players s).2.1 = true ↔
      ∃ p ∈ players, ¬ p.name ∈ s.playerStats.map (·.player) := by
  unfold ensure_player_stat_rows
  dsimp only
  rw [ensure_agg_missing_filter]
  by_cases h : players.filter
      (fun p => ¬ p.name ∈ s.playerStats.map (·.player)) = []
  · have : assignIds ((players.filter
        (fun p => ¬ p.name ∈ s.playerStats.map (·.player))).map (·.name))
        s.nextId = [] := by
      rw [assignIds_eq_nil_iff, h]
      simp
    simp only [this, List.isEmpty_nil, if_pos rfl]
    constructor
    · intro hfalse
      cases hfalse
    · rintro ⟨p, hp, hmem⟩
      have : p ∈ players.filter
          (fun p => ¬ p.name ∈ s.playerStats.map (·.player)) := by
        rw [List.mem_filter]
        exact ⟨hp, by simpa using hmem⟩
      rw [h] at this
      cases this
  · have h2 : ¬ assignIds ((players.filter
        (fun p => ¬ p.name ∈ s.playerStats.map (·.player))).map (·.name))
        s.nextId = [] := by
      rw [assignIds_eq_nil_iff]
      simpa using h
    rw [if_neg (by simpa [List.isEmpty_iff] using h2)]
    simp only [true_iff]
    obtain ⟨p, hp⟩ := List.exists_mem_of_ne_nil _ h
    rw [List.mem_filter] at hp
    exact ⟨p, hp.1, by simpa using hp.2⟩

/-- The dictionary `_ensure_player_stat_rows` returns is, in both branches,
the base name dictionary extended with the freshly created rows. -/
theorem ensure_agg_dict_eq (players : List PlayerInfo) (s : DbState) :
    (ensure_player_stat_rows players s).1 =
      keyFold (·.player)
        (assignIds
          ((players.filter (fun p =>
            (dictGet? (keyFold (·.player) s.playerStats []) p.name).isNone)).map
              (·.name))
          s.nextId)
        (keyFold (·.player) s.playerStats []) := by
  unfold ensure_player_stat_rows
  dsimp only
  by_cases h : (assignIds
      ((players.filter (fun p =>
        (dictGet? (keyFold (·.player) s.playerStats []) p.name).isNone)).map
          (·.name))
      s.nextId).isEmpty
  · rw [if_pos h, List.isEmpty_iff.mp h]
    rfl
  · rw [if_neg h]

/-- Name-presence in the dictionary `_ensure_player_stat_rows` returns: every
name that had a row, plus every roster name. -/
theorem ensure_agg_dict_isSome (players : List PlayerInfo) (s : DbState)
    (nm : String) :
    (dictGet? (ensure_player_stat_rows players s).1 nm).isSome ↔
      nm ∈ s.playerStats.map (·.player) ∨ nm ∈ players.map (·.name) := by
  rw [ensure_agg_dict_eq, dictGet?_keyFold_isSome, assignIds_map_player,
    aggDict_isSome]
  constructor
  · rintro (hmiss | hbase)
    · obtain ⟨p, hp, hpname⟩ := List.mem_map.1 hmiss
      rw [List.mem_filter] at hp
      exact Or.inr (hpname ▸ List.mem_map_of_mem _ hp.1)
    · exact Or.inl hbase
  · rintro (hbase | hros)
    · exact Or.inr hbase
    · by_cases hin : nm ∈ s.playerStats.map (·.player)
      · exact Or.inr hin
      · obtain ⟨p, hp, hpname⟩ := List.mem_map.1 hros
        refine Or.inl (List.mem_map.2 ⟨p, ?_, hpname⟩)
        rw [List.mem_filter]
        refine ⟨hp, ?_⟩
        cases hdg : dictGet? (keyFold (·.player) s.playerStats []) p.name with
        | none => simp
        | some v =>
          exfalso
          apply hin
          rw [← aggDict_isSome s.playerStats nm, ← hpname, hdg]
          simp

theorem missingAggNames_nodup (players : List PlayerInfo) (s : DbState)
    (hp : (players.map (·.name)).Nodup) : (missingAggNames players s).Nodup := by
  unfold missingAggNames
  exact hp.sublist ((List.filter_sublist players).map (·.name))

theorem not_mem_base_of_mem_missingAggNames {players : List PlayerInfo}
    {s : DbState} {nm : String} (h : nm ∈ missingAggNames players s) :
    ¬ nm ∈ s.playerStats.map (·.player) := by
  unfold missingAggNames at h
  obtain ⟨p, hp, hpname⟩ := List.mem_map.1 h
  rw [List.mem_filter] at hp
  subst hpname
  simpa using hp.2

theorem ensure_agg_names (players : List PlayerInfo) (s : DbState) :
    (ensure_player_stat_rows players s).2.2.playerStats.map (·.player) =
      s.playerStats.map (·.player) ++ missingAggNames players s := by
  rw [ensure_agg_state]
  simp [assignIds_map_player]

theorem ensure_agg_aggInv (players : List PlayerInfo) (s : DbState)
    (hp : (players.map (·.name)).Nodup) (hs : aggInv s) :
    aggInv (ensure_player_stat_rows players s).2.2 := by
  unfold aggInv
  rw [ensure_agg_names]
  refine List.Nodup.append hs (missingAggNames_nodup players s hp) ?_
  intro nm hbase hmiss
  exact not_mem_base_of_mem_missingAggNames hmiss hbase

theorem ensure_agg_noop (players : List PlayerInfo) (s : DbState)
    (hall : ∀ p ∈ players, p.name ∈ s.playerStats.map (·.player)) :
    (ensure_player_stat_rows players s).2.1 = false ∧
      (ensure_player_stat_rows players s).2.2 = s := by
  have hm : missingAggNames players s = [] := by
    unfold missingAggNames
    rw [List.filter_eq_nil_iff.2 (by
      intro p hp
      simpa using hall p hp)]
    rfl
  constructor
  · cases hflag : (ensure_player_stat_rows players s).2.1 with
    | false => rfl
    | true =>
      exfalso
      obtain ⟨p, hp, hnm⟩ := (ensure_agg_created players s).1 hflag
      exact hnm (hall p hp)
  · rw [ensure_agg_state, hm]
    simp [assignIds]

/-! ## Lemmas about the season ensure operation -/

theorem seasonLoop_spec (year : Int) (ps : List PlayerInfo) :
    ∀ (d : List (Nat × SeasonStat)) (ms : List SeasonStat) (nid : Nat),
    ∃ t : List SeasonStat,
      (seasonLoop year ps d ms nid).2.1 = ms ++ t ∧
      (∀ st ∈ t, st.season_year = year ∧ st.player_id ∈ ps.map (·.id) ∧
        dictGet? d st.player_id = none ∧ nid ≤ st.id ∧
        st.id < (seasonLoop year ps d ms nid).2.2) ∧
      (t.map (·.player_id)).Nodup ∧ (t.map (·.id)).Nodup ∧
      nid ≤ (seasonLoop year ps d ms nid).2.2 := by
  induction ps with
  | nil =>
    intro d ms nid
    exact ⟨[], by simp [seasonLoop], by simp, by simp, by simp, le_refl _⟩
  | cons p ps ih =>
    intro d ms nid
    by_cases hd : (dictGet? d p.id).isSome
    · simp only [seasonLoop, if_pos hd]
      obtain ⟨t, h1, h2, h3, h4, h5⟩ := ih d ms nid
      refine ⟨t, h1, ?_, h3, h4, h5⟩
      intro st hst
      obtain ⟨hy, hpid, hdg, hle, hlt⟩ := h2 st hst
      exact ⟨hy, List.mem_cons_of_mem _ hpid, hdg, hle, hlt⟩
    · simp only [seasonLoop, if_neg hd]
      have hdnone : dictGet? d p.id = none :=
        Option.not_isSome_iff_eq_none.1 hd
      obtain ⟨t, h1, h2, h3, h4, h5⟩ :=
        ih (dictInsert p.id (mkSeasonStat nid p.id year) d)
          (ms ++ [mkSeasonStat nid p.id year]) (nid + 1)
      have hins : ∀ st ∈ t, ¬ st.player_id = p.id ∧
          dictGet? d st.player_id = none := by
        intro st hst
        obtain ⟨_, _, hdg, _, _⟩ := h2 st hst
        have heq := dictGet?_insert d p.id st.player_id
          (mkSeasonStat nid p.id year)
        rw [hdg] at heq
        by_cases hne : st.player_id = p.id
        · rw [if_pos hne] at heq
          cases heq
        · rw [if_neg hne] at heq
          exact ⟨hne, heq.symm⟩
      refine ⟨mkSeasonStat nid p.id year :: t, ?_, ?_, ?_, ?_, ?_⟩
      · rw [h1, List.append_assoc]
        rfl
      · intro st hst
        rcases List.mem_cons.1 hst with h | h
        · subst h
          refine ⟨rfl, by simp [mkSeasonStat], hdnone, le_refl _, ?_⟩
          have : nid + 1 ≤ (seasonLoop year ps
              (dictInsert p.id (mkSeasonStat nid p.id year) d)
              (ms ++ [mkSeasonStat nid p.id year]) (nid + 1)).2.2 := h5
          simp only [mkSeasonStat] at this ⊢
          omega
        · obtain ⟨hy, hpid, _, hle, hlt⟩ := h2 st h
          exact ⟨hy, List.mem_cons_of_mem _ hpid, (hins st h).2, by omega,
            hlt⟩
      · rw [List.map_cons, List.nodup_cons]
        refine ⟨?_, h3⟩
        intro hmem
        obtain ⟨st, hst, hpid⟩ := List.mem_map.1 hmem
        exact (hins st hst).1 (by simpa [mkSeasonStat] using hpid)
      · rw [List.map_cons, List.nodup_cons]
        refine ⟨?_, h4⟩
        intro hmem
        obtain ⟨st, hst, hid⟩ := List.mem_map.1 hmem
        obtain ⟨_, _, _, hle, _⟩ := h2 st hst
        simp only [mkSeasonStat] at hid
        omega
      · have : nid + 1 ≤ (seasonLoop year ps
            (dictInsert p.id (mkSeasonStat nid p.id year) d)
            (ms ++ [mkSeasonStat nid p.id year]) (nid + 1)).2.2 := h5
        omega

theorem seasonLoop_values (year : Int) (ps : List PlayerInfo) :
    ∀ (d : List (Nat × SeasonStat)) (ms : List SeasonStat) (nid : Nat),
    ∀ v ∈ dictValues (seasonLoop year ps d ms nid).1,
      v ∈ dictValues d ∨ v ∈ (seasonLoop year ps d ms nid).2.1 := by
  induction ps with
  | nil =>
    intro d ms nid v hv
    exact Or.inl (by simpa [seasonLoop] using hv)
  | cons p ps ih =>
    intro d ms nid v hv
    by_cases hd : (dictGet? d p.id).isSome
    · simp only [seasonLoop, if_pos hd] at hv ⊢
      exact ih d ms nid v hv
    · simp only [seasonLoop, if_neg hd] at hv ⊢
      rcases ih (dictInsert p.id (mkSeasonStat nid p.id year) d)
          (ms ++ [mkSeasonStat nid p.id year]) (nid + 1) v hv with h | h
      · rcases mem_dictValues_insert h with h2 | h2
        · right
          obtain ⟨t, h1, -, -, -, -⟩ := seasonLoop_spec year ps
            (dictInsert p.id (mkSeasonStat nid p.id year) d)
            (ms ++ [mkSeasonStat nid p.id year]) (nid + 1)
          rw [h1, h2]
          simp
        · exact Or.inl h2
      · exact Or.inr h

/-- State effect of `_ensure_season_stat_rows`: the missing season rows are
appended in one batch; each is zero-row shaped for this season, references a
roster player with no prior row for the season, and carries a fresh id. -/
theorem ensure_season_state (players : List PlayerInfo) (year : Int)
    (s : DbState) :
    ∃ t : List SeasonStat,
      (ensure_season_stat_rows players year s).2.2.seasonStats =
        s.seasonStats ++ t ∧
      (ensure_season_stat_rows players year s).2.2.players = s.players ∧
      (ensure_season_stat_rows players year s).2.2.playerStats =
        s.playerStats ∧
      s.nextId ≤ (ensure_season_stat_rows players year s).2.2.nextId ∧
      (∀ st ∈ t, st.season_year = year ∧ st.player_id ∈ players.map (·.id) ∧
        (∀ o ∈ s.seasonStats, o.season_year = year →
          ¬ o.player_id = st.player_id) ∧
        s.nextId ≤ st.id ∧
        st.id < (ensure_season_stat_rows players year s).2.2.nextId) ∧
      (t.map (·.player_id)).Nodup ∧ (t.map (·.id)).Nodup := by
  unfold ensure_season_stat_rows
  by_cases hps : players.isEmpty
  · rw [if_pos hps]
    exact ⟨[], by simp, rfl, rfl, le_refl _, by simp, by simp, by simp⟩
  · rw [if_neg hps]
    dsimp only
    obtain ⟨t, h1, h2, h3, h4, h5⟩ := seasonLoop_spec year players
      (keyFold (·.player_id)
        (s.seasonStats.filter (fun st => st.season_year == year &&
          (players.map (·.id)).contains st.player_id)) [])
      [] s.nextId
    rw [List.nil_append] at h1
    have hcond : ∀ st ∈ t,
        (∀ o ∈ s.seasonStats, o.season_year = year →
          ¬ o.player_id = st.player_id) := by
      intro st hst o ho hoyear hopid
      obtain ⟨hy, hpid, hdg, -, -⟩ := h2 st hst
      have homem : o ∈ s.seasonStats.filter (fun st => st.season_year == year
          && (players.map (·.id)).contains st.player_id) := by
        rw [List.mem_filter]
        refine ⟨ho, ?_⟩
        have hmem2 : o.player_id ∈ players.map (·.id) := by
          rw [hopid]
          exact hpid
        have hcontains : (players.map (·.id)).contains o.player_id = true := by
          simpa using hmem2
        simp only [Bool.and_eq_true, beq_iff_eq]
        exact ⟨hoyear, hcontains⟩
      have hsome : (dictGet? (keyFold (·.player_id)
          (s.seasonStats.filter (fun st => st.season_year == year &&
            (players.map (·.id)).contains st.player_id)) [])
          st.player_id).isSome := by
        rw [dictGet?_keyFold_isSome]
        exact Or.inl (by
          rw [← hopid]
          exact List.mem_map_of_mem _ homem)
      rw [hdg] at hsome
      cases hsome
    by_cases hm : (seasonLoop year players
        (keyFold (·.player_id)
          (s.seasonStats.filter (fun st => st.season_year == year &&
            (players.map (·.id)).contains st.player_id)) [])
        [] s.nextId).2.1.isEmpty
    · rw [if_pos hm]
      have ht : t = [] := by
        have := List.isEmpty_iff.mp hm
        rw [h1] at this
        exact this
      subst ht
      exact ⟨[], by simp, rfl, rfl, le_refl _, by simp, by simp, by simp⟩
    · rw [if_neg hm]
      refine ⟨t, by rw [← h1], rfl, rfl, ?_, ?_, h3, h4⟩
      · exact h5
      · intro st hst
        obtain ⟨hy, hpid, hdg, hle, hlt⟩ := h2 st hst
        exact ⟨hy, hpid, hcond st hst, hle, hlt⟩

/-- Every value of the dictionary `_ensure_season_stat_rows` returns is a row
of the resulting season table. -/
theorem ensure_season_dict_values (players : List PlayerInfo) (year : Int)
    (s : DbState) :
    ∀ v ∈ dictValues (ensure_season_stat_rows players year s).1,
      v ∈ (ensure_season_stat_rows players year s).2.2.seasonStats := by
  unfold ensure_season_stat_rows
  by_cases hps : players.isEmpty
  · rw [if_pos hps]
    intro v hv
    cases hv
  · rw [if_neg hps]
    dsimp only
    intro v hv
    by_cases hm : (seasonLoop year players
        (keyFold (·.player_id)
          (s.seasonStats.filter (fun st => st.season_year == year &&
            (players.map (·.id)).contains st.player_id)) [])
        [] s.nextId).2.1.isEmpty
    · rw [if_pos hm] at hv ⊢
      rcases seasonLoop_values year players _ [] s.nextId v hv with h | h
      · rcases mem_dictValues_keyFold (fun st : SeasonStat => st.player_id) h with h2 | h2
        · exact (List.mem_filter.1 h2).1
        · cases h2
      · rw [List.isEmpty_iff.mp hm] at h
        cases h
    · rw [if_neg hm] at hv ⊢
      rcases seasonLoop_values year players _ [] s.nextId v hv with h | h
      · rcases mem_dictValues_keyFold (fun st : SeasonStat => st.player_id) h with h2 | h2
        · exact List.mem_append_left _ (List.mem_filter.1 h2).1
        · cases h2
      · exact List.mem_append_right _ h

/-! ## Lemmas about the backfill -/

theorem backfillRow_keys (agg : List (String × PlayerStat))
    (players : List PlayerInfo) (st : SeasonStat) :
    (backfillRow agg players st).id = st.id ∧
    (backfillRow agg players st).player_id = st.player_id ∧
    (backfillRow agg players st).season_year = st.season_year := by
  unfold backfillRow
  cases h : dictGet? agg (match seasonOwner players st with
    | some p => p.name
    | none => "") <;> simp [h]

theorem applyBackfill_keyMaps (agg : List (String × PlayerStat))
    (players : List PlayerInfo) (modified rows : List SeasonStat)
    (hids : (rows.map (·.id)).Nodup)
    (hmod : ∀ m ∈ modified, ∃ v ∈ rows, m = backfillRow agg players v) :
    (applyBackfill modified rows).map
        (fun st => (st.player_id, st.season_year)) =
      rows.map (fun st => (st.player_id, st.season_year)) ∧
    (applyBackfill modified rows).map (·.id) = rows.map (·.id) := by
  unfold applyBackfill
  constructor <;>
  · rw [List.map_map]
    refine List.map_congr_left ?_
    intro st hst
    simp only [Function.comp]
    cases hfind : modified.find? (fun m => m.id == st.id) with
    | none => rfl
    | some m =>
      have hmmem := List.mem_of_find?_eq_some hfind
      have hmid : m.id = st.id := by
        have := List.find?_some hfind
        simpa using this
      obtain ⟨v, hv, hmv⟩ := hmod m hmmem
      obtain ⟨hk1, hk2, hk3⟩ := backfillRow_keys agg players v
      have hvid : v.id = st.id := by rw [← hmid, hmv, hk1]
      have hveq : v = st :=
        List.inj_on_of_nodup_map hids hv hst hvid
      subst hveq
      rw [hmv]
      obtain ⟨g1, g2, g3⟩ := backfillRow_keys agg players v
      simp [g1, g2, g3]

theorem nodup_keys_of_nodup_pids (t : List SeasonStat)
    (h : (t.map (·.player_id)).Nodup) :
    (t.map (fun st => (st.player_id, st.season_year))).Nodup := by
  have heq : t.map (·.player_id) =
      (t.map (fun st => (st.player_id, st.season_year))).map Prod.fst := by
    rw [List.map_map]
    rfl
  rw [heq] at h
  exact h.of_map

/-- A GET of the `/stats` route preserves both uniqueness invariants of the
statistics tables. -/
theorem statsView_invariants (s : DbState) (h : Wf s) :
    aggInv (statsView s) ∧ seasonInv (statsView s) := by
  obtain ⟨hn, hid, hagg, hseason, hsid, hsfresh, hpfresh⟩ := h
  have hperm := rosterByName_perm s.players
  have hrn : ((rosterByName s.players).map (·.name)).Nodup :=
    ((hperm.map _).nodup_iff).2 hn
  set rost := rosterByName s.players with hrost
  set s1 := (ensure_player_stat_rows rost s).2.2 with hs1
  have h1p : s1.players = s.players := by rw [hs1, ensure_agg_state]
  have h1sea : s1.seasonStats = s.seasonStats := by rw [hs1, ensure_agg_state]
  have h1next : s.nextId ≤ s1.nextId := by
    rw [hs1, ensure_agg_state]
    exact Nat.le_add_right _ _
  have hagg1 : aggInv s1 := ensure_agg_aggInv rost s hrn hagg
  obtain ⟨t, ht1, ht2, ht3, ht4, ht5, ht6, ht7⟩ := ensure_season_state rost 2026 s1
  set s2 := (ensure_season_stat_rows rost 2026 s1).2.2 with hs2
  have hagg2 : aggInv s2 := by
    unfold aggInv at hagg1 ⊢
    rw [ht3]
    exact hagg1
  have hkeys2 : seasonInv s2 := by
    unfold seasonInv
    rw [ht1, List.map_append]
    refine List.Nodup.append ?_ (nodup_keys_of_nodup_pids t ht6) ?_
    · rw [h1sea]
      exact hseason
    · intro x hx1 hx2
      obtain ⟨o, ho, hofx⟩ := List.mem_map.1 hx1
      obtain ⟨st, hstt, hstx⟩ := List.mem_map.1 hx2
      obtain ⟨hy, hpid2, hnopr, -, -⟩ := ht5 st hstt
      have hpair : o.player_id = st.player_id ∧ o.season_year = st.season_year := by
        have := hofx.trans hstx.symm
        exact ⟨congrArg Prod.fst this, congrArg Prod.snd this⟩
      exact hnopr o ho (by rw [hpair.2, hy]) hpair.1
  have hsid2 : (s2.seasonStats.map (·.id)).Nodup := by
    rw [ht1, List.map_append]
    refine List.Nodup.append ?_ ht7 ?_
    · rw [h1sea]
      exact hsid
    · intro x hx1 hx2
      obtain ⟨o, ho, hofx⟩ := List.mem_map.1 hx1
      obtain ⟨st, hstt, hstx⟩ := List.mem_map.1 hx2
      rw [h1sea] at ho
      have hofresh := hsfresh o ho
      obtain ⟨-, -, -, hle, -⟩ := ht5 st hstt
      have : o.id = st.id := hofx.trans hstx.symm
      omega
  have hmain : aggInv (statsView s) ∧ seasonInv (statsView s) := by
    unfold statsView
    dsimp only
    rw [← hrost, ← hs1, ← hs2]
    by_cases hc : (ensure_season_stat_rows rost 2026 s1).2.1 = true
    · rw [if_pos hc]
      constructor
      · exact hagg2
      · unfold seasonInv
        have hmod : ∀ m ∈ (dictValues
              (ensure_season_stat_rows rost 2026 s1).1).map
              (backfillRow (ensure_player_stat_rows rost s).1 rost),
            ∃ v ∈ s2.seasonStats,
              m = backfillRow (ensure_player_stat_rows rost s).1 rost v := by
          intro m hm
          obtain ⟨v, hv, hmv⟩ := List.mem_map.1 hm
          exact ⟨v, ensure_season_dict_values rost 2026 s1 v hv, hmv.symm⟩
        obtain ⟨hkeymap, -⟩ := applyBackfill_keyMaps
          (ensure_player_stat_rows rost s).1 rost _ s2.seasonStats hsid2 hmod
        rw [hkeymap]
        exact hkeys2
    · rw [if_neg hc]
      exact ⟨hagg2, hkeys2⟩
  exact hmain

/-! ## Lemmas about the bulk update forms -/

/-- Field-level characterization of one aggregate row's `try` block: each
counter takes its parsed value when every earlier assignment succeeded and its
own parse succeeded, and keeps its prior value from the first `ValueError`
on; the key columns never change. -/
theorem updateStatRow_fields (form : List (String × String)) (st : PlayerStat) :
    (updateStatRow form st).id = st.id ∧
    (updateStatRow form st).player = st.player ∧
    (updateStatRow form st).clean_sheets = st.clean_sheets ∧
    (updateStatRow form st).goals =
      (parseField form ("goals_" ++ toString st.id)).getD st.goals ∧
    (updateStatRow form st).assists =
      (if (parseField form ("goals_" ++ toString st.id)).isSome then
        (parseField form ("assists_" ++ toString st.id)).getD st.assists
      else st.assists) ∧
    (updateStatRow form st).player_of_match =
      (if (parseField form ("goals_" ++ toString st.id)).isSome ∧
          (parseField form ("assists_" ++ toString st.id)).isSome then
        (parseField form ("player_of_match_" ++ toString st.id)).getD
          st.player_of_match
      else st.player_of_match) ∧
    (updateStatRow form st).yellow_cards =
      (if (parseField form ("goals_" ++ toString st.id)).isSome ∧
          (parseField form ("assists_" ++ toString st.id)).isSome ∧
          (parseField form ("player_of_match_" ++ toString st.id)).isSome then
        (parseField form ("yellow_cards_" ++ toString st.id)).getD
          st.yellow_cards
      else st.yellow_cards) ∧
    (updateStatRow form st).red_cards =
      (if (parseField form ("goals_" ++ toString st.id)).isSome ∧
          (parseField form ("assists_" ++ toString st.id)).isSome ∧
          (parseField form ("player_of_match_" ++ toString st.id)).isSome ∧
          (parseField form ("yellow_cards_" ++ toString st.id)).isSome then
        (parseField form ("red_cards_" ++ toString st.id)).getD st.red_cards
      else st.red_cards) := by
  cases h0 : parseField form ("goals_" ++ toString st.id) with
  | none => simp [updateStatRow, h0]
  | some g =>
    cases h1 : parseField form ("assists_" ++ toString st.id) with
    | none => simp [updateStatRow, h0, h1]
    | some a =>
      cases h2 : parseField form ("player_of_match_" ++ toString st.id) with
      | none => simp [updateStatRow, h0, h1, h2]
      | some pm =>
        cases h3 : parseField form ("yellow_cards_" ++ toString st.id) with
        | none => simp [updateStatRow, h0, h1, h2, h3]
        | some y =>
          cases h4 : parseField form ("red_cards_" ++ toString st.id) with
          | none => simp [updateStatRow, h0, h1, h2, h3, h4]
          | some r => simp [updateStatRow, h0, h1, h2, h3, h4]

/-- The same characterization for one 2026 season row's `try` block. -/
theorem updateSeasonRow_fields (form : List (String × String))
    (st : SeasonStat) :
    (updateSeasonRow form st).id = st.id ∧
    (updateSeasonRow form st).player_id = st.player_id ∧
    (updateSeasonRow form st).season_year = st.season_year ∧
    (updateSeasonRow form st).goals =
      (parseField form ("goals_" ++ toString st.player_id)).getD st.goals ∧
    (updateSeasonRow form st).assists =
      (if (parseField form ("goals_" ++ toString st.player_id)).isSome then
        (parseField form ("assists_" ++ toString st.player_id)).getD st.assists
      else st.assists) ∧
    (updateSeasonRow form st).player_of_match =
      (if (parseField form ("goals_" ++ toString st.player_id)).isSome ∧
          (parseField form ("assists_" ++ toString st.player_id)).isSome then
        (parseField form ("player_of_match_" ++ toString st.player_id)).getD
          st.player_of_match
      else st.player_of_match) ∧
    (updateSeasonRow form st).yellow_cards =
      (if (parseField form ("goals_" ++ toString st.player_id)).isSome ∧
          (parseField form ("assists_" ++ toString st.player_id)).isSome ∧
          (parseField form
            ("player_of_match_" ++ toString st.player_id)).isSome then
        (parseField form ("yellow_cards_" ++ toString st.player_id)).getD
          st.yellow_cards
      else st.yellow_cards) ∧
    (updateSeasonRow form st).red_cards =
      (if (parseField form ("goals_" ++ toString st.player_id)).isSome ∧
          (parseField form ("assists_" ++ toString st.player_id)).isSome ∧
          (parseField form
            ("player_of_match_" ++ toString st.player_id)).isSome ∧
          (parseField form
            ("yellow_cards_" ++ toString st.player_id)).isSome then
        (parseField form ("red_cards_" ++ toString st.player_id)).getD
          st.red_cards
      else st.red_cards) := by
  cases h0 : parseField form ("goals_" ++ toString st.player_id) with
  | none => simp [updateSeasonRow, h0]
  | some g =>
    cases h1 : parseField form ("assists_" ++ toString st.player_id) with
    | none => simp [updateSeasonRow, h0, h1]
    | some a =>
      cases h2 : parseField form
          ("player_of_match_" ++ toString st.player_id) with
      | none => simp [updateSeasonRow, h0, h1, h2]
      | some pm =>
        cases h3 : parseField form
            ("yellow_cards_" ++ toString st.player_id) with
        | none => simp [updateSeasonRow, h0, h1, h2, h3]
        | some y =>
          cases h4 : parseField form
              ("red_cards_" ++ toString st.player_id) with
          | none => simp [updateSeasonRow, h0, h1, h2, h3, h4]
          | some r => simp [updateSeasonRow, h0, h1, h2, h3, h4]

/-! ## Lemmas about deletion and rename -/

theorem countP_beq_le_one [DecidableEq κ] [BEq κ] [LawfulBEq κ]
    (key : α → κ) (c : κ) (l : List α) (h : (l.map key).Nodup) :
    l.countP (fun x => key x == c) ≤ 1 := by
  have heq : (fun x => key x == c) = (fun x => decide (key x = c)) := by
    funext x
    rw [Bool.eq_iff_iff]
    simp
  rw [heq]
  exact countP_key_le_one key c l h

theorem removeFirst_sublist (p : α → Bool) (l : List α) :
    (removeFirst p l).Sublist l := by
  induction l with
  | nil => exact List.Sublist.refl _
  | cons x xs ih =>
    simp only [removeFirst]
    by_cases hx : p x = true
    · rw [if_pos hx]
      exact List.sublist_cons_self _ _
    · rw [if_neg hx]
      exact ih.cons₂ x

theorem nodup_map_rename (names : List String) (c b : String)
    (hnd : names.Nodup) (hb : ¬ b ∈ names) :
    (names.map (fun n => if n = c then b else n)).Nodup := by
  induction names with
  | nil => simp
  | cons n ns ih =>
    rw [List.nodup_cons] at hnd
    rw [List.mem_cons, not_or] at hb
    rw [List.map_cons, List.nodup_cons]
    by_cases hc : n = c
    · rw [if_pos hc]
      have hmap : ns.map (fun n => if n = c then b else n) = ns := by
        refine (List.map_congr_left ?_).trans (List.map_id ns)
        intro m hm
        have : ¬ m = c := by
          intro hmc
          exact hnd.1 (by rw [hc, ← hmc]; exact hm)
        simp [this]
      rw [hmap]
      exact ⟨hb.2, hnd.2⟩
    · rw [if_neg hc]
      refine ⟨?_, ih hnd.2 hb.2⟩
      intro hmem
      obtain ⟨m, hm, hmeq⟩ := List.mem_map.1 hmem
      by_cases hmc : m = c
      · rw [if_pos hmc] at hmeq
        exact hb.1 hmeq
      · rw [if_neg hmc] at hmeq
        exact hnd.1 (hmeq ▸ hm)

theorem renamePlayer_aggInv (s : DbState) (pid : Nat) (newName : String)
    (hagg : aggInv s) (hfresh : ¬ newName ∈ s.playerStats.map (·.player)) :
    aggInv (renamePlayer s pid newName) := by
  unfold renamePlayer
  cases hp : s.players.find? (fun q => q.id == pid) with
  | none => exact hagg
  | some player =>
    dsimp only
    by_cases hne : (newName == player.name) = true
    · rw [if_pos hne]
      exact hagg
    · rw [if_neg hne]
      unfold aggInv
      have hcount : s.playerStats.countP
          (fun st => st.player == player.name) ≤ 1 :=
        countP_beq_le_one (·.player) player.name s.playerStats hagg
      rw [replaceFirst_eq_map _ _ _ hcount, List.map_map]
      have hcomp : ((fun st : PlayerStat => st.player) ∘
          (fun st => if st.player == player.name then
            { st with player := newName } else st)) =
          (fun st : PlayerStat =>
            if st.player = player.name then newName else st.player) := by
        funext st
        by_cases hc : st.player = player.name <;>
          simp [Function.comp, hc]
      rw [hcomp]
      have hfac : s.playerStats.map (fun st : PlayerStat =>
          if st.player = player.name then newName else st.player) =
          (s.playerStats.map (·.player)).map
            (fun n => if n = player.name then newName else n) := by
        rw [List.map_map]
        rfl
      rw [hfac]
      exact nodup_map_rename _ _ _ hagg hfresh

/-- The season uniqueness invariant is preserved by `_ensure_season_stat_rows`
on its own. -/
theorem ensure_season_seasonInv (players : List PlayerInfo) (year : Int)
    (s : DbState) (hseason : seasonInv s) :
    seasonInv (ensure_season_stat_rows players year s).2.2 := by
  obtain ⟨t, ht1, -, -, -, ht5, ht6, -⟩ := ensure_season_state players year s
  unfold seasonInv
  rw [ht1, List.map_append]
  refine List.Nodup.append hseason (nodup_keys_of_nodup_pids t ht6) ?_
  intro x hx1 hx2
  obtain ⟨o, ho, hofx⟩ := List.mem_map.1 hx1
  obtain ⟨st, hstt, hstx⟩ := List.mem_map.1 hx2
  obtain ⟨hy, -, hnopr, -, -⟩ := ht5 st hstt
  have hpair := hofx.trans hstx.symm
  have hpair2 : o.player_id = st.player_id ∧ o.season_year = st.season_year :=
    ⟨congrArg Prod.fst hpair, congrArg Prod.snd hpair⟩
  exact hnopr o ho (by rw [hpair2.2, hy]) hpair2.1

/-! ## Concrete database states used by witnesses and counterexamples -/

/-- Roster player `Ann`, identity 1. -/
def exAnn : PlayerInfo := { id := 1, name := "Ann" }

/-- Roster player `Bob`, identity 2. -/
def exBob : PlayerInfo := { id := 2, name := "Bob" }

/-- Ann's aggregate row with non-zero counters. -/
def exAggAnn : PlayerStat :=
  { id := 10, player := "Ann", goals := 3, assists := 4, player_of_match := 5,
    clean_sheets := 0, yellow_cards := 1, red_cards := 0 }

/-- Ann's pre-existing 2026 season row, with counters that differ from her
aggregate row. -/
def exSeasonAnn : SeasonStat :=
  { id := 20, player_id := 1, season_year := 2026, goals := 7, assists := 8,
    player_of_match := 9, yellow_cards := 2, red_cards := 1 }

/-- A well-formed two-player state in which Ann already has aggregate and
2026 season rows while Bob has neither. -/
def exState : DbState :=
  { players := [exAnn, exBob], playerStats := [exAggAnn],
    seasonStats := [exSeasonAnn], nextId := 21 }

/-! ## C1 -/

/-- C1: the claim says the backfill copies aggregate counters only into the
newly created season rows and that every pre-existing season row keeps its
counters.  The code violates this: viewing `/stats` on `exState` creates
Bob's 2026 row (the `created` flag of the ensure-season step is set), and the
backfill loop then also overwrites Ann's pre-existing row 20, replacing its
counters (goals 7, assists 8, player-of-match 9, yellow 2, red 1) with her
aggregate counters (goals 3, assists 4, player-of-match 5, yellow 1,
red 0). -/
theorem backfill_overwrites_existing_row :
    (ensure_season_stat_rows (rosterByName exState.players) 2026
      (ensure_player_stat_rows (rosterByName exState.players) exState).2.2
      ).2.1 = true ∧
    exState.seasonStats.find? (fun st => st.id == 20) = some exSeasonAnn ∧
    exSeasonAnn.goals = 7 ∧
    (statsView exState).seasonStats.find? (fun st => st.id == 20) =
      some { exSeasonAnn with
             goals := 3, assists := 4, player_of_match := 5,
             yellow_cards := 1, red_cards := 0 } := by
  decide

/-! ## C2 -/

/-- Bulk-update form for row 5: `goals` numeric, `assists` non-numeric, the
rest numeric. -/
def c2Form : List (String × String) :=
  [("goals_5", "7"), ("assists_5", "x"), ("player_of_match_5", "8"),
   ("yellow_cards_5", "9"), ("red_cards_5", "10")]

/-- Aggregate row 5 with known prior counters. -/
def c2Row : PlayerStat :=
  { id := 5, player := "Dee", goals := 1, assists := 2, player_of_match := 3,
    clean_sheets := 0, yellow_cards := 4, red_cards := 6 }

/-- C2 counterexample: the claim says a non-numeric counter in a row leaves
all of that row's stored counters at their prior values.  On `c2Row`, the
submitted `assists` value "x" is non-numeric, yet the row's `goals` counter
changes from its prior 1 to the submitted 7 — the `try` block had already
assigned it before the `ValueError` was raised. -/
theorem bulk_update_partial_row_counterexample :
    parseField c2Form ("assists_" ++ toString c2Row.id) = none ∧
    c2Row.goals = 1 ∧
    (updateStatRow c2Form c2Row).goals = 7 ∧
    (updateStatRow c2Form c2Row).assists = 2 ∧
    (updateStatRow c2Form c2Row).player_of_match = 3 ∧
    (updateStatRow c2Form c2Row).yellow_cards = 4 ∧
    (updateStatRow c2Form c2Row).red_cards = 6 := by
  decide

/-- C2 (amended): each row of a bulk counter-update submission is processed
independently (the submission is never aborted); within a row the counters
are assigned in the fixed order goals, assists, player-of-match, yellow,
red, and each counter takes its submitted value exactly when its own parse
and every earlier parse succeeded, keeping its prior stored value from the
first non-numeric field on; the key columns never change.  Rows whose fields
all parse are updated fully. -/
theorem bulk_update_prefix_semantics (form : List (String × String))
    (s : DbState) (players : List PlayerInfo) (st : PlayerStat)
    (sst : SeasonStat) :
    ((applyAggUpdateForm form s).playerStats =
      s.playerStats.map (updateStatRow form)) ∧
    ((applySeasonUpdateForm form players s).seasonStats =
      s.seasonStats.map (fun r =>
        if r.season_year == 2026 && players.any (fun p => p.id == r.player_id)
        then updateSeasonRow form r else r)) ∧
    ((updateStatRow form st).id = st.id ∧
     (updateStatRow form st).player = st.player ∧
     (updateStatRow form st).clean_sheets = st.clean_sheets ∧
     (updateStatRow form st).goals =
       (parseField form ("goals_" ++ toString st.id)).getD st.goals ∧
     (updateStatRow form st).assists =
       (if (parseField form ("goals_" ++ toString st.id)).isSome then
         (parseField form ("assists_" ++ toString st.id)).getD st.assists
       else st.assists) ∧
     (updateStatRow form st).player_of_match =
       (if (parseField form ("goals_" ++ toString st.id)).isSome ∧
           (parseField form ("assists_" ++ toString st.id)).isSome then
         (parseField form ("player_of_match_" ++ toString st.id)).getD
           st.player_of_match
       else st.player_of_match) ∧
     (updateStatRow form st).yellow_cards =
       (if (parseField form ("goals_" ++ toString st.id)).isSome ∧
           (parseField form ("assists_" ++ toString st.id)).isSome ∧
           (parseField form
             ("player_of_match_" ++ toString st.id)).isSome then
         (parseField form ("yellow_cards_" ++ toString st.id)).getD
           st.yellow_cards
       else st.yellow_cards) ∧
     (updateStatRow form st).red_cards =
       (if (parseField form ("goals_" ++ toString st.id)).isSome ∧
           (parseField form ("assists_" ++ toString st.id)).isSome ∧
           (parseField form ("player_of_match_" ++ toString st.id)).isSome ∧
           (parseField form
             ("yellow_cards_" ++ toString st.id)).isSome then
         (parseField form ("red_cards_" ++ toString st.id)).getD st.red_cards
       else st.red_cards)) ∧
    ((updateSeasonRow form sst).id = sst.id ∧
     (updateSeasonRow form sst).player_id = sst.player_id ∧
     (updateSeasonRow form sst).season_year = sst.season_year ∧
     (updateSeasonRow form sst).goals =
       (parseField form ("goals_" ++ toString sst.player_id)).getD sst.goals ∧
     (updateSeasonRow form sst).assists =
       (if (parseField form ("goals_" ++ toString sst.player_id)).isSome then
         (parseField form ("assists_" ++ toString sst.player_id)).getD
           sst.assists
       else sst.assists) ∧
     (updateSeasonRow form sst).player_of_match =
       (if (parseField form ("goals_" ++ toString sst.player_id)).isSome ∧
           (parseField form
             ("assists_" ++ toString sst.player_id)).isSome then
         (parseField form ("player_of_match_" ++ toString sst.player_id)).getD
           sst.player_of_match
       else sst.player_of_match) ∧
     (updateSeasonRow form sst).yellow_cards =
       (if (parseField form ("goals_" ++ toString sst.player_id)).isSome ∧
           (parseField form ("assists_" ++ toString sst.player_id)).isSome ∧
           (parseField form
             ("player_of_match_" ++ toString sst.player_id)).isSome then
         (parseField form ("yellow_cards_" ++ toString sst.player_id)).getD
           sst.yellow_cards
       else sst.yellow_cards) ∧
     (updateSeasonRow form sst).red_cards =
       (if (parseField form ("goals_" ++ toString sst.player_id)).isSome ∧
           (parseField form ("assists_" ++ toString sst.player_id)).isSome ∧
           (parseField form
             ("player_of_match_" ++ toString sst.player_id)).isSome ∧
           (parseField form
             ("yellow_cards_" ++ toString sst.player_id)).isSome then
         (parseField form ("red_cards_" ++ toString sst.player_id)).getD
           sst.red_cards
       else sst.red_cards)) :=
  ⟨rfl, rfl, updateStatRow_fields form st, updateSeasonRow_fields form sst⟩

/-! ## C3 -/

/-- C3 counterexample: `bogus` is outside the allow-list, yet requesting it
with direction `desc` does not reproduce sorting by `player` ascending — the
route substitutes the field but keeps the requested direction. -/
theorem sort_fallback_direction_counterexample :
    ¬ "bogus" ∈ allowed_fields ∧
    routeSortPlayerStats [mkPlayerStat 2 "Ann", mkPlayerStat 1 "Zed"]
        (some "bogus") (some "desc") ≠
      routeSortPlayerStats [mkPlayerStat 2 "Ann", mkPlayerStat 1 "Zed"]
        (some "player") (some "asc") := by
  decide

/-- C3 (amended): a sort-field outside the allow-list never fails and is
silently replaced by `player`, while the requested direction is kept: the
result equals sorting by `player` with the same direction argument (hence it
equals `player` ascending exactly when the requested direction is
ascending). -/
theorem sort_unknown_field_fallback (f : String) (hf : ¬ f ∈ allowed_fields)
    (stats : List PlayerStat) (players : List PlayerInfo)
    (sstats : List SeasonStat) (ord : Option String) :
    routeSortPlayerStats stats (some f) ord =
      routeSortPlayerStats stats (some "player") ord ∧
    routeSortSeasonStats players sstats (some f) ord =
      routeSortSeasonStats players sstats (some "player") ord := by
  unfold routeSortPlayerStats routeSortSeasonStats
  simp [hf]

/-- Witness for C3's amended theorem at a concrete out-of-allow-list field
and descending direction. -/
theorem sort_unknown_field_fallback_witness :
    (¬ "bogus" ∈ allowed_fields) ∧
    routeSortPlayerStats [mkPlayerStat 2 "Ann", mkPlayerStat 1 "Zed"]
        (some "bogus") (some "desc") =
      routeSortPlayerStats [mkPlayerStat 2 "Ann", mkPlayerStat 1 "Zed"]
        (some "player") (some "desc") :=
  ⟨by decide,
    (sort_unknown_field_fallback "bogus" (by decide)
      [mkPlayerStat 2 "Ann", mkPlayerStat 1 "Zed"] [] [] (some "desc")).1⟩

/-! ## C8 -/

/-- C8: sorting by `player` orders rows by the case-folded display name —
`Ann` before `mid` before `Zed` — for both the aggregate table (name on the
row) and the season table (name through the identity reference), and the
descending direction yields the reversed order. -/
theorem sort_by_player_casefold_example :
    (sort_player_stats
        [mkPlayerStat 1 "Zed", mkPlayerStat 2 "Ann", mkPlayerStat 3 "mid"]
        "player" false).map (·.player) = ["Ann", "mid", "Zed"] ∧
    (sort_player_stats
        [mkPlayerStat 1 "Zed", mkPlayerStat 2 "Ann", mkPlayerStat 3 "mid"]
        "player" true).map (·.player) = ["Zed", "mid", "Ann"] ∧
    (sort_season_stats [⟨1, "Zed"⟩, ⟨2, "Ann"⟩, ⟨3, "mid"⟩]
        [mkSeasonStat 11 1 2026, mkSeasonStat 12 2 2026,
         mkSeasonStat 13 3 2026]
        "player" false).map (·.player_id) = [2, 3, 1] ∧
    (sort_season_stats [⟨1, "Zed"⟩, ⟨2, "Ann"⟩, ⟨3, "mid"⟩]
        [mkSeasonStat 11 1 2026, mkSeasonStat 12 2 2026,
         mkSeasonStat 13 3 2026]
        "player" true).map (·.player_id) = [1, 3, 2] := by
  decide

/-! ## C9 -/

/-- C9: when the read token is not configured (unset or empty) or the remote
listing call fails in any way — the request raised (network error, timeout),
an error HTTP status, or a body that does not parse — the media listing
returns the empty list instead of propagating an error. -/
theorem blob_listing_degrades_to_empty (token : Option String) (avail : Bool)
    (year : Int) (outcome : RemoteOutcome)
    (h : tokenMissing token = true ∨ outcomeFailed outcome = true) :
    list_vercel_blobs_for_year token avail year outcome = [] := by
  unfold list_vercel_blobs_for_year
  cases token with
  | none => rfl
  | some t =>
    dsimp only
    rcases h with h | h
    · simp only [tokenMissing] at h
      rw [if_pos (by simp [h])]
    · by_cases ht : (t == "" || !avail) = true
      · rw [if_pos ht]
      · rw [if_neg ht]
        cases outcome with
        | netFailure => rfl
        | response status body =>
          simp only [outcomeFailed] at h
          dsimp only
          by_cases hs : 400 ≤ status
          · rw [if_pos hs]
          · rw [if_neg hs]
            have hb : body = none := by
              have h' : 400 ≤ status ∨ body.isNone = true := by simpa using h
              rcases h' with h2 | h2
              · exact absurd h2 hs
              · exact Option.isNone_iff_eq_none.1 h2
            rw [hb]

/-- Witness for C9 at a concrete failed outcome: a 503 status with a parsed
body still yields the empty listing. -/
theorem blob_listing_degrades_to_empty_witness :
    outcomeFailed (RemoteOutcome.response 503 (some [])) = true ∧
    list_vercel_blobs_for_year (some "tok") true 2025
      (RemoteOutcome.response 503 (some [])) = [] :=
  ⟨by decide,
    blob_listing_degrades_to_empty (some "tok") true 2025
      (RemoteOutcome.response 503 (some [])) (Or.inr (by decide))⟩

/-! ## C10 -/

/-- A bulk-update form for row 7 in which the `assists` parameter is entirely
absent and every present parameter is numeric. -/
def c10Form : List (String × String) :=
  [("goals_7", "1"), ("player_of_match_7", "2"), ("yellow_cards_7", "3"),
   ("red_cards_7", "4")]

/-- Aggregate row 7 with a non-zero prior `assists` value. -/
def c10Row : PlayerStat :=
  { id := 7, player := "Cal", goals := 6, assists := 9, player_of_match := 6,
    clean_sheets := 0, yellow_cards := 6, red_cards := 6 }

/-- C10: in a row of the bulk counter-update submission whose present values
are all numeric (so the ignore path is never triggered), a counter parameter
that is entirely absent from the form is set to 0 — `form.get(key, 0)`
defaults to the integer 0, which parses — rather than keeping the prior
stored value; only a present-but-non-numeric value triggers the ignore
path. -/
theorem absent_counter_defaults_to_zero (form : List (String × String))
    (st : PlayerStat)
    (h0 : (parseField form ("goals_" ++ toString st.id)).isSome = true)
    (h1 : (parseField form ("assists_" ++ toString st.id)).isSome = true)
    (h2 : (parseField form
      ("player_of_match_" ++ toString st.id)).isSome = true)
    (h3 : (parseField form
      ("yellow_cards_" ++ toString st.id)).isSome = true)
    (h4 : (parseField form ("red_cards_" ++ toString st.id)).isSome = true) :
    (formLookup form ("goals_" ++ toString st.id) = none →
      (updateStatRow form st).goals = 0) ∧
    (formLookup form ("assists_" ++ toString st.id) = none →
      (updateStatRow form st).assists = 0) ∧
    (formLookup form ("player_of_match_" ++ toString st.id) = none →
      (updateStatRow form st).player_of_match = 0) ∧
    (formLookup form ("yellow_cards_" ++ toString st.id) = none →
      (updateStatRow form st).yellow_cards = 0) ∧
    (formLookup form ("red_cards_" ++ toString st.id) = none →
      (updateStatRow form st).red_cards = 0) := by
  have habs : ∀ key, formLookup form key = none →
      parseField form key = some 0 := by
    intro key hk
    unfold parseField
    rw [hk]
  obtain ⟨-, -, -, hg, ha, hpm, hy, hr⟩ := updateStatRow_fields form st
  refine ⟨?_, ?_, ?_, ?_, ?_⟩ <;> intro hk
  · rw [hg, habs _ hk]
    rfl
  · rw [ha, if_pos h0, habs _ hk]
    rfl
  · rw [hpm, if_pos ⟨h0, h1⟩, habs _ hk]
    rfl
  · rw [hy, if_pos ⟨h0, h1, h2⟩, habs _ hk]
    rfl
  · rw [hr, if_pos ⟨h0, h1, h2, h3⟩, habs _ hk]
    rfl

/-- Witness for C10: the absent `assists` parameter of `c10Form` resets the
row's assists counter from its prior 9 to 0. -/
theorem absent_counter_defaults_to_zero_witness :
    formLookup c10Form ("assists_" ++ toString c10Row.id) = none ∧
    c10Row.assists = 9 ∧
    (updateStatRow c10Form c10Row).assists = 0 :=
  ⟨by decide, by decide,
    (absent_counter_defaults_to_zero c10Form c10Row (by decide) (by decide)
      (by decide) (by decide) (by decide)).2.1 (by decide)⟩

/-! ## C4 -/

/-- C4: on a roster with distinct names and an aggregate table with unique
name keys, one call to `_ensure_player_stat_rows` appends exactly one
zero-initialized row for each roster name not already present (every other
row is untouched), returns a dictionary containing a row for every roster
player and a created flag set exactly when something was missing; the
resulting table still has unique names (no duplicates), and a second call on
the resulting state creates nothing, changes nothing, and returns the
created flag false. -/
theorem ensure_aggregate_correct_idempotent (players : List PlayerInfo)
    (s : DbState) (hp : (players.map (·.name)).Nodup)
    (hs : (s.playerStats.map (·.player)).Nodup) :
    ((ensure_player_stat_rows players s).2.2.playerStats.map (·.player) =
      s.playerStats.map (·.player) ++
        (players.filter (fun p =>
          ¬ p.name ∈ s.playerStats.map (·.player))).map (·.name)) ∧
    (∀ st ∈ (ensure_player_stat_rows players s).2.2.playerStats,
      st ∈ s.playerStats ∨ zeroAgg st) ∧
    (∀ p ∈ players,
      (dictGet? (ensure_player_stat_rows players s).1 p.name).isSome = true) ∧
    (((ensure_player_stat_rows players s).2.2.playerStats.map
      (·.player)).Nodup) ∧
    ((ensure_player_stat_rows players s).2.1 = true ↔
      ∃ p ∈ players, ¬ p.name ∈ s.playerStats.map (·.player)) ∧
    ((ensure_player_stat_rows players
      (ensure_player_stat_rows players s).2.2).2.1 = false) ∧
    ((ensure_player_stat_rows players
        (ensure_player_stat_rows players s).2.2).2.2 =
      (ensure_player_stat_rows players s).2.2) := by
  have hall : ∀ p ∈ players, p.name ∈
      (ensure_player_stat_rows players s).2.2.playerStats.map (·.player) := by
    intro p hp2
    rw [ensure_agg_names]
    by_cases hin : p.name ∈ s.playerStats.map (·.player)
    · exact List.mem_append_left _ hin
    · refine List.mem_append_right _ ?_
      unfold missingAggNames
      exact List.mem_map.2 ⟨p, List.mem_filter.2 ⟨hp2, by simpa using hin⟩,
        rfl⟩
  refine ⟨?_, ?_, ?_, ensure_agg_aggInv players s hp hs,
    ensure_agg_created players s, (ensure_agg_noop players _ hall).1,
    (ensure_agg_noop players _ hall).2⟩
  · rw [ensure_agg_names]
    rfl
  · intro st hst
    rw [ensure_agg_state] at hst
    rcases List.mem_append.1 hst with h | h
    · exact Or.inl h
    · exact Or.inr (zeroAgg_of_mem_assignIds h)
  · intro p hp2
    rw [ensure_agg_dict_isSome]
    exact Or.inr (List.mem_map_of_mem _ hp2)

/-- Witness for C4 on the concrete state `exState`: Ann has a row, Bob does
not; the created flag is set and the second call reports no creation. -/
theorem ensure_aggregate_correct_idempotent_witness :
    (([exAnn, exBob].map (·.name)).Nodup ∧
      (exState.playerStats.map (·.player)).Nodup) ∧
    ((ensure_player_stat_rows [exAnn, exBob] exState).2.1 = true ↔
      ∃ p ∈ [exAnn, exBob],
        ¬ p.name ∈ exState.playerStats.map (·.player)) ∧
    ((ensure_player_stat_rows [exAnn, exBob]
      (ensure_player_stat_rows [exAnn, exBob] exState).2.2).2.1 = false) :=
  ⟨⟨by decide, by decide⟩,
    (ensure_aggregate_correct_idempotent [exAnn, exBob] exState (by decide)
      (by decide)).2.2.2.2.1,
    (ensure_aggregate_correct_idempotent [exAnn, exBob] exState (by decide)
      (by decide)).2.2.2.2.2.1⟩

/-! ## C6 -/

/-- C6: deleting an existing player identity removes the roster row, the
aggregate row carrying the player's name, and every season row referencing
the identity — and nothing else; repeating the delete against the now
missing identity terminates as not-found (`none`), which leaves the state
untouched. -/
theorem delete_player_cascades_idempotent (s : DbState) (pid : Nat)
    (p : PlayerInfo) (hid : (s.players.map (·.id)).Nodup)
    (hagg : aggInv s)
    (hp : s.players.find? (fun q => q.id == pid) = some p) :
    ∃ s2, deletePlayer s pid = some s2 ∧
      s2.players = s.players.filter (fun q => !(q.id == pid)) ∧
      s2.playerStats = s.playerStats.filter (fun st => !(st.player == p.name)) ∧
      s2.seasonStats = s.seasonStats.filter (fun st => !(st.player_id == pid)) ∧
      deletePlayer s2 pid = none := by
  have hplayers : removeFirst (fun q => q.id == pid) s.players =
      s.players.filter (fun q => !(q.id == pid)) :=
    removeFirst_eq_filter _ _ (countP_beq_le_one (·.id) pid s.players hid)
  have hnone : (removeFirst (fun q => q.id == pid) s.players).find?
      (fun q => q.id == pid) = none := by
    rw [hplayers, List.find?_eq_none]
    intro q hq
    have := (List.mem_filter.1 hq).2
    simpa using this
  unfold deletePlayer
  rw [hp]
  dsimp only
  refine ⟨_, rfl, hplayers, ?_, rfl, ?_⟩
  · exact removeFirst_eq_filter _ _
      (countP_beq_le_one (·.player) p.name s.playerStats hagg)
  · rw [hnone]

/-- Witness for C6: deleting Ann (identity 1) from `exState`. -/
theorem delete_player_cascades_idempotent_witness :
    ((exState.players.map (·.id)).Nodup ∧ aggInv exState ∧
      exState.players.find? (fun q => q.id == 1) = some exAnn) ∧
    (∃ s2, deletePlayer exState 1 = some s2 ∧
      s2.players = exState.players.filter (fun q => !(q.id == 1)) ∧
      s2.playerStats =
        exState.playerStats.filter (fun st => !(st.player == exAnn.name)) ∧
      s2.seasonStats =
        exState.seasonStats.filter (fun st => !(st.player_id == 1)) ∧
      deletePlayer s2 1 = none) :=
  ⟨⟨by decide, by decide, by decide⟩,
    delete_player_cascades_idempotent exState 1 exAnn (by decide) (by decide)
      (by decide)⟩

/-! ## C7 -/

/-- C7: renaming a player whose aggregate row exists rewrites exactly that
row's name key to the new name — every counter of the row, and every other
aggregate row, is unchanged — and the season table is untouched (its rows
reference the player by identity, not by name). -/
theorem rename_updates_aggregate_preserves_counters (s : DbState) (pid : Nat)
    (newName : String) (p : PlayerInfo)
    (hp : s.players.find? (fun q => q.id == pid) = some p)
    (hne : ¬ newName = p.name)
    (hex : ∃ st ∈ s.playerStats, st.player = p.name)
    (hagg : aggInv s) :
    (renamePlayer s pid newName).seasonStats = s.seasonStats ∧
    (renamePlayer s pid newName).playerStats =
      s.playerStats.map (fun st =>
        if st.player = p.name then { st with player := newName } else st) ∧
    (∀ st ∈ s.playerStats, st.player = p.name →
      { st with player := newName } ∈
        (renamePlayer s pid newName).playerStats) := by
  have hnb : (newName == p.name) = false := by
    simpa using hne
  have hmap : replaceFirst (fun st => st.player == p.name)
      (fun st => { st with player := newName }) s.playerStats =
      s.playerStats.map (fun st =>
        if st.player = p.name then { st with player := newName } else st) := by
    rw [replaceFirst_eq_map _ _ _
      (countP_beq_le_one (·.player) p.name s.playerStats hagg)]
    refine List.map_congr_left ?_
    intro st _
    by_cases hc : st.player = p.name
    · rw [if_pos (show (st.player == p.name) = true by simpa using hc),
        if_pos hc]
    · rw [if_neg (show ¬ (st.player == p.name) = true by simpa using hc),
        if_neg hc]
  unfold renamePlayer
  rw [hp]
  dsimp only
  rw [if_neg (by simp [hnb])]
  refine ⟨rfl, hmap, ?_⟩
  intro st hst hname
  show _ ∈ replaceFirst _ _ s.playerStats
  rw [hmap]
  have hmem := List.mem_map_of_mem (fun st : PlayerStat =>
    if st.player = p.name then { st with player := newName } else st) hst
  simpa [hname] using hmem

/-- Witness for C7: renaming Ann (identity 1) to `Amy` in `exState`. -/
theorem rename_updates_aggregate_preserves_counters_witness :
    (exState.players.find? (fun q => q.id == 1) = some exAnn ∧
      ¬ "Amy" = exAnn.name ∧ aggInv exState) ∧
    ((renamePlayer exState 1 "Amy").seasonStats = exState.seasonStats ∧
     (renamePlayer exState 1 "Amy").playerStats =
       exState.playerStats.map (fun st =>
         if st.player = exAnn.name then { st with player := "Amy" }
         else st) ∧
     (∀ st ∈ exState.playerStats, st.player = exAnn.name →
       { st with player := "Amy" } ∈
         (renamePlayer exState 1 "Amy").playerStats)) :=
  ⟨⟨by decide, by decide, by decide⟩,
    rename_updates_aggregate_preserves_counters exState 1 "Amy" exAnn
      (by decide) (by decide) ⟨exAggAnn, by decide, by decide⟩ (by decide)⟩

/-! ## C5 -/

/-- C5: starting from a well-formed database (the schema's uniqueness
constraints and fresh primary-key counter), every embedded operation that
touches the statistics tables preserves both key invariants — at most one
aggregate row per player name and at most one season row per
(player identity, season year) pair: the two ensure steps, a GET of the
`/stats` route (reconciliation plus backfill), both bulk counter-update
forms, deleting a player, renaming a player (to a name respecting the
aggregate table's unique constraint, as the database enforces on commit) and
adding a player. -/
theorem stat_key_invariants_preserved (s : DbState) (h : Wf s) :
    (∀ players : List PlayerInfo, (players.map (·.name)).Nodup →
      aggInv (ensure_player_stat_rows players s).2.2 ∧
      seasonInv (ensure_player_stat_rows players s).2.2) ∧
    (∀ (players : List PlayerInfo) (year : Int),
      aggInv (ensure_season_stat_rows players year s).2.2 ∧
      seasonInv (ensure_season_stat_rows players year s).2.2) ∧
    (aggInv (statsView s) ∧ seasonInv (statsView s)) ∧
    (∀ form, aggInv (applyAggUpdateForm form s) ∧
      seasonInv (applyAggUpdateForm form s)) ∧
    (∀ form players, aggInv (applySeasonUpdateForm form players s) ∧
      seasonInv (applySeasonUpdateForm form players s)) ∧
    (∀ pid s2, deletePlayer s pid = some s2 →
      aggInv s2 ∧ seasonInv s2) ∧
    (∀ pid newName, ¬ newName ∈ s.playerStats.map (·.player) →
      aggInv (renamePlayer s pid newName) ∧
      seasonInv (renamePlayer s pid newName)) ∧
    (∀ nm, aggInv (addPlayer s nm) ∧ seasonInv (addPlayer s nm)) := by
  have hagg : aggInv s := h.2.2.1
  have hseason : seasonInv s := h.2.2.2.1
  refine ⟨?_, ?_, statsView_invariants s h, ?_, ?_, ?_, ?_, ?_⟩
  · intro players hpn
    refine ⟨ensure_agg_aggInv players s hpn hagg, ?_⟩
    unfold seasonInv
    rw [ensure_agg_state]
    exact hseason
  · intro players year
    refine ⟨?_, ensure_season_seasonInv players year s hseason⟩
    obtain ⟨t, -, -, ht3, -, -, -, -⟩ := ensure_season_state players year s
    unfold aggInv
    rw [ht3]
    exact hagg
  · intro form
    constructor
    · show ((s.playerStats.map (updateStatRow form)).map (·.player)).Nodup
      have heq : (s.playerStats.map (updateStatRow form)).map (·.player) =
          s.playerStats.map (·.player) := by
        rw [List.map_map]
        refine List.map_congr_left ?_
        intro st _
        exact (updateStatRow_fields form st).2.1
      rw [heq]
      exact hagg
    · show ((s.seasonStats).map
        (fun st => (st.player_id, st.season_year))).Nodup
      exact hseason
  · intro form players
    constructor
    · show ((s.playerStats).map (·.player)).Nodup
      exact hagg
    · show ((s.seasonStats.map (fun st =>
        if st.season_year == 2026 &&
            players.any (fun p => p.id == st.player_id)
        then updateSeasonRow form st else st)).map
          (fun st => (st.player_id, st.season_year))).Nodup
      have heq : (s.seasonStats.map (fun st =>
          if st.season_year == 2026 &&
              players.any (fun p => p.id == st.player_id)
          then updateSeasonRow form st else st)).map
            (fun st => (st.player_id, st.season_year)) =
          s.seasonStats.map (fun st => (st.player_id, st.season_year)) := by
        rw [List.map_map]
        refine List.map_congr_left ?_
        intro st _
        simp only [Function.comp]
        by_cases hcnd : (st.season_year == 2026 &&
            players.any (fun p => p.id == st.player_id)) = true
        · rw [if_pos hcnd]
          obtain ⟨-, hpid, hyear, -⟩ := updateSeasonRow_fields form st
          rw [hpid, hyear]
        · rw [if_neg hcnd]
      rw [heq]
      exact hseason
  · intro pid s2 hdel
    unfold deletePlayer at hdel
    cases hfind : s.players.find? (fun q => q.id == pid) with
    | none =>
      rw [hfind] at hdel
      cases hdel
    | some player =>
      rw [hfind] at hdel
      have hs2 := (Option.some.inj hdel).symm
      subst hs2
      constructor
      · show ((removeFirst (fun st => st.player == player.name)
          s.playerStats).map (·.player)).Nodup
        exact List.Nodup.sublist
          ((removeFirst_sublist _ s.playerStats).map _) hagg
      · show ((s.seasonStats.filter (fun st => !(st.player_id == pid))).map
          (fun st => (st.player_id, st.season_year))).Nodup
        exact List.Nodup.sublist
          ((List.filter_sublist s.seasonStats).map _) hseason
  · intro pid newName hfresh
    refine ⟨renamePlayer_aggInv s pid newName hagg hfresh, ?_⟩
    unfold seasonInv renamePlayer
    cases hp2 : s.players.find? (fun q => q.id == pid) with
    | none => exact hseason
    | some player =>
      dsimp only
      by_cases hne : (newName == player.name) = true
      · rw [if_pos hne]
        exact hseason
      · rw [if_neg hne]
        exact hseason
  · intro nm
    constructor
    · unfold aggInv addPlayer
      dsimp only
      split
      · exact hagg
      · exact hagg
    · unfold seasonInv addPlayer
      dsimp only
      split
      · exact hseason
      · exact hseason

/-- Witness for C5 on the well-formed concrete state `exState`, projected to
the `/stats` GET conjunct. -/
theorem stat_key_invariants_preserved_witness :
    Wf exState ∧ (aggInv (statsView exState) ∧ seasonInv (statsView exState)) :=
  ⟨by decide, (stat_key_invariants_preserved exState (by decide)).2.2.1⟩

end CanberraFC
